import Mathlib

/-!
# popcubeexternalapi: the JWT verification pipeline

A shallow embedding of `api/jwtauth.go`: the token locator and the checks of
`JwtAuth.Verify`, the context written by `JwtAuth.SetContext`, and the gates
`Authenticator` and `allowUserCreationFromToken`; and of the creation of a user:
`User.IsValid` in `models/user.go`, `UserStoreImpl.Save` in
`datastores/user_store.go` and the handler `newUser` in `api/user_route.go`; and of
the validation of organisations in `models/organisation.go` and the helper
`ExpireIn`.

Conventions of the embedding

* A Go `string` is its sequence of bytes (`GoString`); `len`, `s[i:j]` and `==`
  act on bytes as in Go.
* Code that lives outside the repository (the `jwt-go` parser, `strings.ToUpper`
  on non-ASCII input, the wall clock, the platform's float conversion) is a field
  of `Env`; every theorem holds for every `Env` unless it says otherwise. The same
  holds for `ModelEnv` and `ApiEnv` (the package `utils`, `net/mail`, gorm, chi).
* An `http.Handler` is a function from the response writer and the request to the
  response writer; a middleware is a function from handlers to handlers.
-/

namespace Popcube

/-! ## Go strings -/

/-- A Go string is a sequence of bytes. -/
abbrev GoString := List Nat

/-- The bytes of an ASCII literal. -/
def str (s : String) : GoString := s.toList.map Char.toNat

/-- The case mapping `unicode.ToUpper` on an ASCII rune: `a`..`z` move to `A`..`Z`. -/
def asciiToUpper (b : Nat) : Nat := if 97 ≤ b ∧ b ≤ 122 then b - 32 else b

/-! ## Claims, tokens, errors -/

/-- A Go `float64`: a finite value (every finite double is a rational), NaN or an infinity. -/
inductive Float64 where
  | finite (q : ℚ)
  | nan
  | inf (negative : Bool)
  deriving DecidableEq

/-- The dynamic types a claim value (`interface{}`) is inspected for in this package. -/
inductive Value where
  | float64 (v : Float64)
  | int64 (v : Int)
  | jsonNumber (s : GoString)
  | string (s : GoString)
  | other
  deriving DecidableEq

/-- The type `jwt.MapClaims`, a `map[string]interface{}`, as an association list
(the first entry of a key is its value). -/
abbrev MapClaims := List (GoString × Value)

/-- The map index expression `m[k]` in its two-result form `v, ok := m[k]`. -/
def MapClaims.get (m : MapClaims) (k : GoString) : Option Value :=
  (m.find? (fun p => p.1 == k)).map (fun p => p.2)

/-- A `jwt.SigningMethod` interface value: `none` is the nil interface, `some alg` the
registered method object of algorithm `alg` (one object per algorithm, so identity of
method objects is equality of algorithm names). -/
abbrev SigningMethod := Option GoString

/-- The fields of `jwt.Token` this package reads. -/
structure Token where
  Raw : GoString
  Method : SigningMethod
  Claims : MapClaims
  Valid : Bool
  deriving DecidableEq

/-- A Go `error` value: the two package errors and any error made by the jwt library. -/
inductive GoError where
  | ErrUnauthorized
  | ErrExpired
  | other (msg : GoString)
  deriving DecidableEq

/-- The method `Error()` of an error value. -/
def GoError.Error : GoError → GoString
  | .ErrUnauthorized => str "jwtauth: unauthorized token"
  | .ErrExpired => str "jwtauth: expired token"
  | .other msg => msg

/-- The settings of a `jwt.Parser`. -/
structure JwtParser where
  ValidMethods : List GoString
  UseJSONNumber : Bool
  deriving DecidableEq

/-- A Go `[]byte`: `none` is the nil slice. -/
abbrev Bytes := Option (List Nat)

/-- The builtin `len` on a `[]byte`. -/
def Bytes.len : Bytes → Nat
  | none => 0
  | some b => b.length

/-- The type `jwt.Keyfunc`. -/
abbrev Keyfunc := Token → Bytes × Option GoError

/-- What the program takes from outside the repository. -/
structure Env where
  /-- The parser of jwt-go: `(*jwt.Parser).Parse`, and `jwt.Parse` when the parser
  is `none`. It returns a token pointer (possibly nil) and an error (possibly nil). -/
  Parse : Option JwtParser → GoString → Keyfunc → Option Token × Option GoError
  /-- The clock reading `time.Now().UTC().Unix()` during the request. -/
  now : Int
  /-- The result of `int64(f)` for a float the type `int64` cannot represent
  (implementation-dependent in Go). -/
  int64Unrepresentable : Float64 → Int
  /-- The result of `strings.ToUpper` on a string with a non-ASCII byte. -/
  unicodeToUpper : GoString → GoString

/-- The function `strings.ToUpper`: on ASCII input every byte is mapped by
`unicode.ToUpper`; other input goes through the Unicode tables of the library. -/
def ToUpper (env : Env) (s : GoString) : GoString :=
  if s.all (fun b => decide (b < 128)) then s.map asciiToUpper else env.unicodeToUpper s

/-- The struct `JwtAuth`. -/
structure JwtAuth where
  signKey : Bytes
  verifyKey : Bytes
  signer : SigningMethod
  parser : Option JwtParser

/-! ## Requests, contexts, handlers -/

/-- A key of a `context.Context`: a value of the package's private type `key`
(`jwtErrorKey`, `jwtTokenKey`), or a key of another type. -/
inductive CtxKey where
  | key (s : GoString)
  | foreign (n : Nat)
  deriving DecidableEq

/-- The context key `jwtErrorKey`. -/
def jwtErrorKey : CtxKey := .key (str "jwt.err")

/-- The context key `jwtTokenKey`. -/
def jwtTokenKey : CtxKey := .key (str "jwt")

/-- An `interface{}` stored in a context: the nil interface, a non-nil `error`,
a `*jwt.Token` (possibly a nil pointer), or a value of another type. -/
inductive Any where
  | nil
  | error (e : GoError)
  | token (t : Option Token)
  | foreign (n : Nat)
  deriving DecidableEq

/-- A `context.Context` as the stack of its `WithValue` layers, innermost first. -/
abbrev Context := List (CtxKey × Any)

/-- The function `context.WithValue`. -/
def Context.WithValue (ctx : Context) (k : CtxKey) (v : Any) : Context := (k, v) :: ctx

/-- The method `ctx.Value`: the value of the innermost layer with that key, else nil. -/
def Context.Value (ctx : Context) (k : CtxKey) : Any :=
  match ctx.find? (fun p => p.1 == k) with
  | some p => p.2
  | none => .nil

/-- The conversion of an `error` to `interface{}`. -/
def Any.ofError : Option GoError → Any
  | none => .nil
  | some e => .error e

/-- A `url.Values` or `http.Header`: a map from a name to its list of values. -/
abbrev Values := List (GoString × List GoString)

/-- The method `Get` of `url.Values` and of `http.Header`: the first value of the
name, or the empty string. -/
def Values.Get (v : Values) (k : GoString) : GoString :=
  match v.find? (fun p => p.1 == k) with
  | some p => p.2.headD []
  | none => []

/-- The parts of an `*http.Request` the middleware reads: the parsed query
(`r.URL.Query()`), the header with canonical names, the cookies of the `Cookie`
header in order (name, value), and the context. -/
structure Request where
  query : Values
  header : Values
  cookies : List (GoString × GoString)
  ctx : Context

/-- The method `r.Cookie(name)`: the first cookie of that name; `none` stands for
`http.ErrNoCookie`. -/
def Request.Cookie (r : Request) (name : GoString) : Option GoString :=
  (r.cookies.find? (fun c => c.1 == name)).map (fun c => c.2)

/-- The method `r.WithContext`. -/
def Request.WithContext (r : Request) (ctx : Context) : Request := { r with ctx := ctx }

/-- The `http.ResponseWriter`: the responses rendered so far (status, value). -/
structure ResponseWriter where
  rendered : List (Nat × GoString)
  deriving DecidableEq

/-- An `http.Handler`. -/
abbrev Handler := ResponseWriter → Request → ResponseWriter

/-- The call `render.JSON(w, status, v)` with a string value `v`: it writes the
status and the JSON encoding of `v`; the writer records the pair. -/
def renderJSON (w : ResponseWriter) (status : Nat) (v : GoString) : ResponseWriter :=
  { rendered := w.rendered ++ [(status, v)] }

/-! ## Expiry -/

/-- The conversion `int64(v)` of a `float64`: the value truncated toward zero when
that fits an `int64`, else the platform's result. -/
def int64OfFloat64 (env : Env) : Float64 → Int
  | .finite q =>
    let t := Int.tdiv q.num q.den
    if -2 ^ 63 ≤ t ∧ t < 2 ^ 63 then t else env.int64Unrepresentable (.finite q)
  | .nan => env.int64Unrepresentable .nan
  | .inf negative => env.int64Unrepresentable (.inf negative)

/-- The digit loop of `strconv.ParseUint(s, 10, 64)`: `none` is a syntax error, and
the value that overflows `uint64` stops the loop with the largest `uint64`. -/
def ParseUint.loop : GoString → Nat → Option Nat
  | [], n => some n
  | c :: cs, n =>
    if 48 ≤ c ∧ c ≤ 57 then
      let n1 := n * 10 + (c - 48)
      if n1 > 2 ^ 64 - 1 then some (2 ^ 64 - 1) else ParseUint.loop cs n1
    else none

/-- The value of `strconv.ParseUint(s, 10, 64)`; `none` is a syntax error. -/
def ParseUint (s : GoString) : Option Nat :=
  if s = [] then none else ParseUint.loop s 0

/-- The value `json.Number.Int64` returns, which is that of
`strconv.ParseInt(s, 10, 64)`: 0 on a syntax error and the nearest `int64` on a range
error (the error itself is dropped by the caller). -/
def Int64 (s : GoString) : Int :=
  match s with
  | [] => 0
  | c :: cs =>
    let neg := c == 45
    let digits := if c == 43 ∨ c == 45 then cs else c :: cs
    match ParseUint digits with
    | none => 0
    | some un =>
      if !neg ∧ un ≥ 2 ^ 63 then 2 ^ 63 - 1
      else if neg ∧ un > 2 ^ 63 then -2 ^ 63
      else if neg then -(un : Int) else (un : Int)

/-- The function `EpochNow`. -/
def EpochNow (env : Env) : Int := env.now

/-- The type switch of `IsExpired`: the `int64` it reads from the value of `exp`. -/
def IsExpired.exp (env : Env) (expv : Value) : Int :=
  match expv with
  | .float64 v => int64OfFloat64 env v
  | .int64 v => v
  | .jsonNumber v => Int64 v
  | _ => 0

/-- The method `JwtAuth.IsExpired`. -/
def JwtAuth.IsExpired (_ja : JwtAuth) (env : Env) (t : Token) : Bool :=
  match t.Claims.get (str "exp") with
  | some expv =>
    let exp := IsExpired.exp env expv
    if exp < EpochNow env then true else false
  | none => false

/-! ## Decoding -/

/-- The method `JwtAuth.keyFunc`. -/
def JwtAuth.keyFunc (ja : JwtAuth) : Keyfunc := fun _t =>
  if ja.verifyKey ≠ none ∧ ja.verifyKey.len > 0 then (ja.verifyKey, none)
  else (ja.signKey, none)

/-- The method `JwtAuth.Decode`. -/
def JwtAuth.Decode (ja : JwtAuth) (env : Env) (tokenString : GoString) :
    Option Token × Option GoError :=
  match ja.parser with
  | some p => env.Parse (some p) tokenString ja.keyFunc
  | none => env.Parse none tokenString ja.keyFunc

/-! ## The Verify middleware -/

/-- The method `JwtAuth.SetContext`. -/
def JwtAuth.SetContext (_ja : JwtAuth) (ctx : Context) (t : Option Token)
    (err : Option GoError) : Context :=
  let ctx := ctx.WithValue jwtTokenKey (.token t)
  let ctx := ctx.WithValue jwtErrorKey (Any.ofError err)
  ctx

/-- The loop over `paramAliases` in `Verify`: each alias assigns `tokenStr`, and the
loop breaks at the first non-empty value. -/
def Verify.aliasLoop (query : Values) : List GoString → GoString → GoString
  | [], tokenStr => tokenStr
  | p :: ps, _ =>
    let tokenStr := query.Get p
    if tokenStr ≠ [] then tokenStr else Verify.aliasLoop query ps tokenStr

/-- The first part of the handler in `Verify`: the token string it locates in the
request (query parameter, aliases, Authorization header, cookie). -/
def Verify.tokenStr (env : Env) (paramAliases : List GoString) (r : Request) : GoString :=
  -- Get token from query params
  let tokenStr := r.query.Get (str "jwt")
  -- Get token from other query param aliases
  let tokenStr :=
    if tokenStr = [] ∧ paramAliases.length > 0 then
      Verify.aliasLoop r.query paramAliases tokenStr
    else tokenStr
  -- Get token from authorization header
  let tokenStr :=
    if tokenStr = [] then
      let bearer := r.header.Get (str "Authorization")
      if bearer.length > 7 ∧ ToUpper env (bearer.take 6) = str "BEARER" then
        bearer.drop 7
      else tokenStr
    else tokenStr
  -- Get token from cookie
  let tokenStr :=
    if tokenStr = [] then
      match r.Cookie (str "jwt") with
      | some value => value
      | none => tokenStr
    else tokenStr
  tokenStr

/-- The method `JwtAuth.Verify`. The variable `err` is declared once; the
assignment from `Decode` writes the same variable. -/
def JwtAuth.Verify (ja : JwtAuth) (env : Env) (paramAliases : List GoString)
    (next : Handler) : Handler := fun w r => Id.run do
  let mut ctx := r.ctx
  let tokenStr := Verify.tokenStr env paramAliases r
  let mut err : Option GoError := none
  -- Token is required, cya
  if tokenStr = [] then
    err := some .ErrUnauthorized
  -- Verify the token
  let decoded := ja.Decode env tokenStr
  let token := decoded.1
  err := decoded.2
  if let some e := err then
    if e.Error = str "token is expired" then
      err := some .ErrExpired
    ctx := ja.SetContext ctx token err
    return next w (r.WithContext ctx)
  match token with
  | none =>
    err := some .ErrUnauthorized
    ctx := ja.SetContext ctx token err
    return next w (r.WithContext ctx)
  | some tok =>
    if !tok.Valid ∨ tok.Method ≠ ja.signer then
      err := some .ErrUnauthorized
      ctx := ja.SetContext ctx token err
      return next w (r.WithContext ctx)
    -- Check expiry via "exp" claim
    if ja.IsExpired env tok then
      err := some .ErrExpired
      ctx := ja.SetContext ctx token err
      return next w (r.WithContext ctx)
    -- Valid! pass it down the context to an authenticator middleware
    ctx := ja.SetContext ctx token err
    return next w (r.WithContext ctx)

/-- The method `JwtAuth.Verifier`. -/
def JwtAuth.Verifier (ja : JwtAuth) (env : Env) (next : Handler) : Handler :=
  ja.Verify env [str ""] next

/-! ## The gates -/

/-- The type assertion `v.(error)` in its two-result form. -/
def Any.assertError : Any → Option GoError × Bool
  | .error e => (some e, true)
  | _ => (none, false)

/-- The type assertion `v.(*jwt.Token)` in its two-result form. -/
def Any.assertToken : Any → Option Token × Bool
  | .token t => (t, true)
  | _ => (none, false)

/-- The middleware `Authenticator`. -/
def Authenticator (next : Handler) : Handler := fun w r =>
  let ctx := r.ctx
  let (jwtErr, ok) := (ctx.Value jwtErrorKey).assertError
  if ok ∧ jwtErr ≠ none then
    renderJSON w 401 (str "Token not found. You Are not allowed to proceed without token.")
  else
    let (jwtToken, ok) := (ctx.Value jwtTokenKey).assertToken
    match jwtToken with
    | none => renderJSON w 401 (str "token is not valid or does not exist")
    | some jwtToken =>
      if !ok ∨ !jwtToken.Valid then
        renderJSON w 401 (str "token is not valid or does not exist")
      else
        match jwtToken.Claims.get (str "type") with
        | none => renderJSON w 401 (str "Token is not valid. Type is undifined")
        | some tokenType =>
          if tokenType ≠ .string (str "userauth") then
            renderJSON w 401 (str "Token is not an user auth one")
          else
            -- Token is authenticated, pass it through
            next w r

/-- The middleware `allowUserCreationFromToken`. -/
def allowUserCreationFromToken (next : Handler) : Handler := fun w r =>
  let ctx := r.ctx
  let (jwtErr, ok) := (ctx.Value jwtErrorKey).assertError
  if ok ∧ jwtErr ≠ none then
    renderJSON w 401 (str "Token not found. You Are not allowed to proceed without token.")
  else
    let (jwtToken, ok) := (ctx.Value jwtTokenKey).assertToken
    match jwtToken with
    | none => renderJSON w 401 (str "token is not valid or does not exist")
    | some jwtToken =>
      if !ok ∨ !jwtToken.Valid then
        renderJSON w 401 (str "token is not valid or does not exist")
      else
        match jwtToken.Claims.get (str "type") with
        | none => renderJSON w 401 (str "Token is not valid. Type is undifined")
        | some tokenType =>
          if tokenType ≠ .string (str "invitation") then
            renderJSON w 401 (str "Token is not an invitation one")
          else
            -- Token is authenticated, pass it through
            next w r

/-! ## Closed forms and stated properties -/

/-- The outcome `Verify` hands to `SetContext`, as a function of what `Decode`
returned: the closed form of the branches of `Verify` (see `Verify_eq`). -/
def Verify.checks (ja : JwtAuth) (env : Env) (d : Option Token × Option GoError) :
    Option Token × Option GoError :=
  match d with
  | (token, some e) =>
    (token, if e.Error = str "token is expired" then some .ErrExpired else some e)
  | (none, none) => (none, some .ErrUnauthorized)
  | (some tok, none) =>
    if tok.Valid = false ∨ tok.Method ≠ ja.signer then (some tok, some .ErrUnauthorized)
    else if ja.IsExpired env tok = true then (some tok, some .ErrExpired)
    else (some tok, none)

/-- The first non-empty string of a list, or the empty string. -/
def firstNonEmpty : List GoString → GoString
  | [] => []
  | s :: ss => if s ≠ [] then s else firstNonEmpty ss

/-- Whether `Verify` accepts an Authorization header value: more than 7 bytes, the
first six of which are `BEARER` in upper case. -/
def bearerAccepted (env : Env) (bearer : GoString) : Prop :=
  bearer.length > 7 ∧ ToUpper env (bearer.take 6) = str "BEARER"

instance (env : Env) (bearer : GoString) : Decidable (bearerAccepted env bearer) := by
  unfold bearerAccepted; infer_instance

/-- The bearer remainder of an Authorization header value: what follows its first
7 bytes when the header is accepted, else the empty string. -/
def bearerRemainder (env : Env) (bearer : GoString) : GoString :=
  if bearerAccepted env bearer then bearer.drop 7 else []

/-- The value of the `jwt` cookie, or the empty string without such a cookie. -/
def cookieValue (r : Request) : GoString :=
  (r.Cookie (str "jwt")).getD []

/-- The token sources of a request in the order of the specification: the `jwt`
query parameter, the alias parameters, the bearer remainder, the cookie. -/
def tokenSources (env : Env) (paramAliases : List GoString) (r : Request) : List GoString :=
  [r.query.Get (str "jwt")] ++ paramAliases.map r.query.Get ++
    [bearerRemainder env (r.header.Get (str "Authorization")), cookieValue r]

/-- No source of the request yields a token string: no `jwt` query parameter, no
non-empty alias parameter, no accepted Authorization header, no `jwt` cookie (or an
empty one). -/
def NoTokenSource (env : Env) (paramAliases : List GoString) (r : Request) : Prop :=
  r.query.Get (str "jwt") = [] ∧ (∀ p ∈ paramAliases, r.query.Get p = []) ∧
    ¬ bearerAccepted env (r.header.Get (str "Authorization")) ∧
    (r.Cookie (str "jwt") = none ∨ r.Cookie (str "jwt") = some [])

/-- A six-byte scheme that equals `BEARER` when case is ignored: each byte is the
upper-case letter or the lower-case letter 32 above it. -/
def IsBearerScheme (scheme : GoString) : Prop :=
  List.Forall₂ (fun c u => c = u ∨ c = u + 32) scheme (str "BEARER")

/-! ## Test doubles -/

/-- The message of jwt-go for a string that is not three dot-separated segments. -/
def malformedMsg : GoString := str "token contains an invalid number of segments"

/-- A parser double: the listed strings decode to the listed results, and every
other string is malformed (as is the empty string for jwt-go). -/
def tableParse (table : List (GoString × (Option Token × Option GoError))) :
    Option JwtParser → GoString → Keyfunc → Option Token × Option GoError :=
  fun _ s _ =>
    match table.find? (fun p => p.1 == s) with
    | some p => p.2
    | none => (none, some (.other malformedMsg))

/-- An environment over a parser double, with the clock at 1500000000. -/
def tableEnv (table : List (GoString × (Option Token × Option GoError))) : Env where
  Parse := tableParse table
  now := 1500000000
  int64Unrepresentable := fun _ => -2 ^ 63
  unicodeToUpper := id

/-- An HS256 configuration without a separate verify key. -/
def hs256 : JwtAuth where
  signKey := some [115, 101, 99, 114, 101, 116]
  verifyKey := none
  signer := some (str "HS256")
  parser := none

/-- A valid HS256 token with the given claims. -/
def hsToken (raw : GoString) (claims : MapClaims) : Token where
  Raw := raw
  Method := some (str "HS256")
  Claims := claims
  Valid := true

/-- A request without query, header, cookie or context values. -/
def emptyRequest : Request where
  query := []
  header := []
  cookies := []
  ctx := []

/-- A writer nothing was written to. -/
def emptyWriter : ResponseWriter := { rendered := [] }

/-- A handler that answers 200. -/
def okHandler : Handler := fun w _ => renderJSON w 200 (str "ok")

/-- Claims of a user token with the given `exp`. -/
def authClaims (exp : Value) : MapClaims :=
  [(str "type", .string (str "userauth")), (str "exp", exp)]

/-- A user token that expires in 2033. -/
def goodToken : Token := hsToken (str "good") (authClaims (.float64 (.finite 2000000000)))

/-- A user token that expired in 2001. -/
def oldToken : Token := hsToken (str "old") (authClaims (.float64 (.finite 1000000000)))

/-- A user token signed with RS256. -/
def rsToken : Token :=
  { hsToken (str "rs") (authClaims (.float64 (.finite 2000000000))) with
    Method := some (str "RS256") }

/-- An environment whose parser knows four token strings: a good one, one past its
`exp`, one of another algorithm, and one the parser itself reports as expired. -/
def demoEnv : Env :=
  tableEnv
    [(str "good", (some goodToken, none)),
     (str "old", (some oldToken, none)),
     (str "rs", (some rsToken, none)),
     (str "stale", (some { oldToken with Valid := false },
        some (.other (str "token is expired"))))]

/-- A request with the query string `jwt=tok`. -/
def queryRequest (tok : GoString) : Request :=
  { emptyRequest with query := [(str "jwt", [tok])] }

/-- A request with the given Authorization header value. -/
def bearerRequest (value : GoString) : Request :=
  { emptyRequest with header := [(str "Authorization", [value])] }

/-- A request with the cookie `jwt=tok`. -/
def cookieRequest (tok : GoString) : Request :=
  { emptyRequest with cookies := [(str "jwt", [tok].headD [])] }

/-! ## Users: models/user.go -/

/-- The fields of `utils.AppError` the sources read or set (the package `utils` is
not among the sources). -/
structure AppError where
  Where : GoString
  ID : GoString
  DetailedError : GoString
  StatusCode : Nat
  deriving DecidableEq

/-- What the package `models` takes from outside the sources. -/
structure ModelEnv where
  /-- The constructor `utils.NewLocAppError(where, id, nil, details)`. -/
  NewLocAppError : GoString → GoString → GoString → AppError
  /-- The function `utils.IsLower`. -/
  IsLower : GoString → Bool
  /-- Whether `mail.ParseAddress` returns no error, for an input that is not blank. -/
  parseAddress : GoString → Bool
  /-- The result of `strings.ToLower` on a string with a non-ASCII byte. -/
  unicodeToLower : GoString → GoString

/-- The case mapping `unicode.ToLower` on an ASCII rune: `A`..`Z` move to `a`..`z`. -/
def asciiToLower (b : Nat) : Nat := if 65 ≤ b ∧ b ≤ 90 then b + 32 else b

/-- The function `strings.ToLower`: on ASCII input every byte is mapped by
`unicode.ToLower`; other input goes through the Unicode tables of the library. -/
def ToLower (env : ModelEnv) (s : GoString) : GoString :=
  if s.all (fun b => decide (b < 128)) then s.map asciiToLower else env.unicodeToLower s

/-- Whether `mail.ParseAddress` returns no error: the parser skips leading spaces and
tabs and reports "mail: no address" when nothing is left; other input goes through
the address grammar of the library. -/
def ParseAddress (env : ModelEnv) (address : GoString) : Bool :=
  if address.dropWhile (fun c => c == 32 || c == 9) = [] then false
  else env.parseAddress address

/-- The number of bytes `utf8` takes for the rune that starts with byte `c` followed
by `rest`: the length of a well-formed encoding, and 1 for a byte that starts none. -/
def runeWidth (c : Nat) (rest : GoString) : Nat :=
  if c < 0x80 then 1
  else if c < 0xC2 then 1
  else if c ≤ 0xDF then
    match rest with
    | c1 :: _ => if 0x80 ≤ c1 ∧ c1 ≤ 0xBF then 2 else 1
    | _ => 1
  else if c ≤ 0xEF then
    let lo := if c = 0xE0 then 0xA0 else 0x80
    let hi := if c = 0xED then 0x9F else 0xBF
    match rest with
    | c1 :: c2 :: _ => if lo ≤ c1 ∧ c1 ≤ hi ∧ 0x80 ≤ c2 ∧ c2 ≤ 0xBF then 3 else 1
    | _ => 1
  else if c ≤ 0xF4 then
    let lo := if c = 0xF0 then 0x90 else 0x80
    let hi := if c = 0xF4 then 0x8F else 0xBF
    match rest with
    | c1 :: c2 :: c3 :: _ =>
      if lo ≤ c1 ∧ c1 ≤ hi ∧ 0x80 ≤ c2 ∧ c2 ≤ 0xBF ∧ 0x80 ≤ c3 ∧ c3 ≤ 0xBF then 4 else 1
    | _ => 1
  else 1

/-- The loop of `utf8.RuneCountInString`: `skip` bytes of the current rune are still
to pass; at a rune start the count grows by one. -/
def RuneCountInString.go : Nat → GoString → Nat
  | _, [] => 0
  | 0, c :: rest => 1 + RuneCountInString.go (runeWidth c rest - 1) rest
  | skip + 1, _ :: rest => RuneCountInString.go skip rest

/-- The function `utf8.RuneCountInString`. -/
def RuneCountInString (s : GoString) : Nat := RuneCountInString.go 0 s

/-- The variable `restrictedUsernames`. -/
def restrictedUsernames : List GoString :=
  [str "all", str "channel", str "popcubebot", str "here"]

/-- The character class of `validUsernameChars`: `a`-`z`, `0`-`9`, `.`, `-`, `_`. -/
def validUsernameChar (c : Nat) : Bool :=
  (97 ≤ c && c ≤ 122) || (48 ≤ c && c ≤ 57) || c == 46 || c == 45 || c == 95

/-- The match of the regular expression `^[a-z0-9\.\-_]+$` (`validUsernameChars`):
one or more bytes, all of the class. -/
def validUsernameChars.MatchString (s : GoString) : Bool :=
  s ≠ [] && s.all validUsernameChar

/-- The function `IsValidUsername`. -/
def IsValidUsername (user : GoString) : Bool :=
  if user.length = 0 ∨ user.length > 64 then false
  else if !validUsernameChars.MatchString user then false
  else if restrictedUsernames.any (fun restrictedUsername => user == restrictedUsername) then
    false
  else true

/-- The function `IsValidEmail`. -/
def IsValidEmail (env : ModelEnv) (email : GoString) : Bool :=
  ParseAddress env email && env.IsLower email

/-- The struct `Organisation`. -/
structure Organisation where
  IDOrganisation : Nat
  DockerStack : Int
  OrganisationName : GoString
  Public : Bool
  Description : GoString
  Avatar : GoString
  Domain : GoString
  deriving DecidableEq

/-- The struct `User`. -/
structure User where
  IDUser : Nat
  Username : GoString
  Email : GoString
  EmailVerified : Bool
  Deleted : Bool
  Avatar : GoString
  NickName : GoString
  FirstName : GoString
  LastName : GoString
  Organisation : List Organisation
  IDOrganisation : Nat
  deriving DecidableEq

/-- The method `User.IsValid`; `none` is the nil `*AppError`. -/
def User.IsValid (env : ModelEnv) (user : User) (isUpdate : Bool) : Option AppError :=
  if !isUpdate ∧ user.Email.length = 0 then
    some (env.NewLocAppError (str "user.IsValid")
      (str "model.user.is_valid.Email.app_error") (str ""))
  else if !IsValidUsername user.Username then
    some (env.NewLocAppError (str "user.IsValid")
      (str "model.user.is_valid.Username.app_error") (str ""))
  else if user.Email.length > 128 ∨ !IsValidEmail env user.Email then
    some (env.NewLocAppError (str "user.IsValid")
      (str "model.user.is_valid.Email.app_error") (str ""))
  else if RuneCountInString user.NickName > 64 then
    some (env.NewLocAppError (str "user.IsValid")
      (str "model.user.is_valid.NickName.app_error") (str ""))
  else if RuneCountInString user.FirstName > 64 then
    some (env.NewLocAppError (str "user.IsValid")
      (str "model.user.is_valid.first_name.app_error") (str ""))
  else if RuneCountInString user.LastName > 64 then
    some (env.NewLocAppError (str "user.IsValid")
      (str "model.user.is_valid.last_name.app_error") (str ""))
  else none

/-- The method `User.PreSave`: the user after the call. -/
def User.PreSave (env : ModelEnv) (user : User) : User :=
  { user with Username := ToLower env user.Username, Email := ToLower env user.Email }

/-! ## Saving a user: datastores/user_store.go, api/user_route.go -/

/-- The calls on the gorm transaction whose results `Save` uses: `NewRecord`, and
`Create` with the record as the database leaves it and the error of the call. -/
structure Db where
  NewRecord : User → Bool
  Create : User → User × Option GoError

/-- The method `UserStoreImpl.Save`: the user as `Save` leaves it behind the pointer,
and the returned `*AppError`. The transaction's begin, rollback and commit return
nothing `Save` reads. -/
def UserStoreImpl.Save (env : ModelEnv) (db : Db) (user : User) : User × Option AppError :=
  let user := user.PreSave env
  match user.IsValid env false with
  | some appError =>
    (user, some (env.NewLocAppError (str "userStoreImpl.Save.user.PreSave") appError.ID
      appError.DetailedError))
  | none =>
    if !db.NewRecord user then
      (user, some (env.NewLocAppError (str "userStoreImpl.Save")
        (str "save.transaction.create.already_exist")
        (str "User Name: " ++ user.Username)))
    else
      match db.Create user with
      | (user, some err) =>
        (user, some (env.NewLocAppError (str "userStoreImpl.Save")
          (str "save.transaction.create.encounterError :" ++ err.Error) (str "")))
      | (user, none) => (user, none)

/-- The fields of the package values `error422` and `error503` the handler reads
(their declaration is not among the sources). -/
structure ApiError where
  StatusCode : Nat
  Message : GoString
  deriving DecidableEq

/-- What the handlers of `api` take from outside the sources. -/
structure ApiEnv where
  model : ModelEnv
  /-- The call `chiRender.Bind(r, &User)`: the decoded user and the error. -/
  Bind : Request → User × Option GoError
  /-- The call `db.DB().Ping()`. -/
  Ping : Option GoError
  db : Db
  error422 : ApiError
  error503 : ApiError
  /-- The JSON encodings `render.JSON` writes. -/
  jsonUser : User → GoString
  jsonAppError : AppError → GoString
  jsonApiError : ApiError → GoString

/-- The handler `newUser`: the writer after the call; `none` is the panic of reading
`apperr.StatusCode` through a nil pointer. -/
def newUser (env : ApiEnv) (w : ResponseWriter) (r : Request) : Option ResponseWriter :=
  let (user, err) := env.Bind r
  if err ≠ none then
    some (renderJSON w env.error422.StatusCode (env.jsonApiError env.error422))
  else if env.Ping ≠ none then
    some (renderJSON w env.error503.StatusCode (env.jsonApiError env.error503))
  else
    let (user, apperr) := UserStoreImpl.Save env.model env.db user
    if err = none then
      some (renderJSON w 201 (env.jsonUser user))
    else
      match apperr with
      | some apperr => some (renderJSON w apperr.StatusCode (env.jsonAppError apperr))
      | none => none

/-- A model environment: errors carry status 500, an address is accepted when it
holds an `@`, and a string is lower when it has no upper-case ASCII letter. -/
def demoModelEnv : ModelEnv where
  NewLocAppError := fun location id details =>
    { Where := location, ID := id, DetailedError := details, StatusCode := 500 }
  IsLower := fun s => s.all (fun c => !(65 ≤ c && c ≤ 90))
  parseAddress := fun s => s.contains 64
  unicodeToLower := id

/-- A user with a name and nothing else. -/
def bob : User where
  IDUser := 0
  Username := str "bob"
  Email := []
  EmailVerified := false
  Deleted := false
  Avatar := []
  NickName := []
  FirstName := []
  LastName := []
  Organisation := []
  IDOrganisation := 0

/-- An API environment: the body binds to `bob`, the database answers and creates
every record. -/
def demoApiEnv : ApiEnv where
  model := demoModelEnv
  Bind := fun _ => (bob, none)
  Ping := none
  db := { NewRecord := fun _ => true, Create := fun u => ({ u with IDUser := 1 }, none) }
  error422 := { StatusCode := 422, Message := str "wrong entity" }
  error503 := { StatusCode := 503, Message := str "database error" }
  jsonUser := fun u => u.Username
  jsonAppError := fun e => e.ID
  jsonApiError := fun e => e.Message

/-! ## The gates as one parameterised gate -/

/-- The gate of the specification (4.4) with the expected `type` literal and its
rejection message as parameters: an error in the context, then an absent or invalid
token, then an absent `type`, then a `type` that differs from the expected literal
each render their 401; otherwise the next handler runs on the request as it is. -/
def claimGate (expected rejection : GoString) (next : Handler) : Handler := fun w r =>
  match r.ctx.Value jwtErrorKey with
  | .error _ =>
    renderJSON w 401 (str "Token not found. You Are not allowed to proceed without token.")
  | _ =>
    match r.ctx.Value jwtTokenKey with
    | .token (some t) =>
      if t.Valid = true then
        match t.Claims.get (str "type") with
        | none => renderJSON w 401 (str "Token is not valid. Type is undifined")
        | some v => if v = .string expected then next w r else renderJSON w 401 rejection
      else renderJSON w 401 (str "token is not valid or does not exist")
    | _ => renderJSON w 401 (str "token is not valid or does not exist")

/-- The context carries no error: the value under `jwtErrorKey` is not an `error`
(it is nil, absent or of another type). -/
def ctxNoError (ctx : Context) : Prop := ∀ e, ctx.Value jwtErrorKey ≠ .error e

/-- The context carries no usable token: no `*jwt.Token` under `jwtTokenKey` (nothing
at all when no verifier ran), a nil token, or a token whose `Valid` flag is false. -/
def ctxTokenUnusable (ctx : Context) : Prop :=
  (∀ t, ctx.Value jwtTokenKey ≠ .token t) ∨ ctx.Value jwtTokenKey = .token none ∨
    ∃ t, ctx.Value jwtTokenKey = .token (some t) ∧ t.Valid = false

/-- The key resolution rule of the specification (4.1): the verify key when it is
present and non-empty, else the signing key. -/
def resolveKey (verifyKey signKey : Bytes) : Bytes :=
  match verifyKey with
  | some (b :: bs) => some (b :: bs)
  | _ => signKey

/-- A handler that leaves the writer as it is. -/
def idleHandler : Handler := fun w _ => w

/-- A request whose context holds the given outcome, as `SetContext` writes it. -/
def outcomeRequest (t : Option Token) (e : Option GoError) : Request :=
  emptyRequest.WithContext (hs256.SetContext [] t e)

/-- An invitation token. -/
def inviteToken : Token :=
  hsToken (str "invite") [(str "type", .string (str "invitation"))]

/-! ## Organisations: models/organisation.go -/

/-- A character class as a regular expression: one of the listed bytes. -/
def charClass (l : List Nat) : RegularExpression Nat :=
  l.foldr (fun c r => RegularExpression.char c + r) 0

/-- The repetition `r+`. -/
def oneOrMore (r : RegularExpression Nat) : RegularExpression Nat := r * r.star

/-- The option `r?`. -/
def zeroOrOne (r : RegularExpression Nat) : RegularExpression Nat := r + 1

/-- The bytes `a`-`z`. -/
def lowerLetters : List Nat := (List.range 26).map (fun i => i + 97)

/-- The bytes `0`-`9`. -/
def decimalDigits : List Nat := (List.range 10).map (fun i => i + 48)

/-- The class `[a-z0-9]`. -/
def classAlnum : List Nat := lowerLetters ++ decimalDigits

/-- The class `[a-z\-\_0-9]`. -/
def classAlnumDashUnderscore : List Nat := lowerLetters ++ [45, 95] ++ decimalDigits

/-- The class `[a-z\-0-9]`. -/
def classAlnumDash : List Nat := lowerLetters ++ [45] ++ decimalDigits

/-- The expression `^[a-z0-9]+([a-z\-\_0-9]+|(__)?)[a-z0-9]+$`. -/
def validAlphaNumUnderscore : RegularExpression Nat :=
  oneOrMore (charClass classAlnum) *
    (oneOrMore (charClass classAlnumDashUnderscore) +
      zeroOrOne (RegularExpression.char 95 * RegularExpression.char 95)) *
    oneOrMore (charClass classAlnum)

/-- The expression `^[a-z0-9]+([a-z\-0-9]+|(__)?)[a-z0-9]+$`. -/
def validAlphaNum : RegularExpression Nat :=
  oneOrMore (charClass classAlnum) *
    (oneOrMore (charClass classAlnumDash) +
      zeroOrOne (RegularExpression.char 95 * RegularExpression.char 95)) *
    oneOrMore (charClass classAlnum)

/-- The method `MatchString` of an expression anchored by `^` and `$`: the whole
string matches. A byte outside ASCII belongs to a rune that is in none of the
classes, so matching bytes is matching runes. -/
def MatchString (re : RegularExpression Nat) (s : GoString) : Bool := re.rmatch s

/-- The function `IsValidAlphaNum`. -/
def IsValidAlphaNum (s : GoString) (allowUnderscores : Bool) : Bool :=
  if allowUnderscores then MatchString validAlphaNumUnderscore s
  else MatchString validAlphaNum s

/-- The function `IsValidOrganisationIdentifier`. -/
def IsValidOrganisationIdentifier (s : GoString) : Bool := IsValidAlphaNum s true

/-- The function `strconv.FormatUint(n, 10)`. -/
def FormatUint (n : Nat) : GoString := (Nat.toDigits 10 n).map Char.toNat

/-- The method `Organisation.IsValid`; `none` is the nil `*AppError`. -/
def Organisation.IsValid (env : ModelEnv) (organisation : Organisation) : Option AppError :=
  if organisation.OrganisationName.length = 0 ∨
      RuneCountInString organisation.OrganisationName > 64 then
    some (env.NewLocAppError (str "Organisation.IsValid")
      (str "model.organisation.is_valid.organisation_name.app_error")
      (str "id=" ++ FormatUint organisation.IDOrganisation))
  else if !IsValidOrganisationIdentifier organisation.OrganisationName then
    some (env.NewLocAppError (str "Organisation.IsValid")
      (str "model.organisation.is_valid.not_alphanum_organisation_name.app_error")
      (str "id=" ++ FormatUint organisation.IDOrganisation))
  else if RuneCountInString organisation.Description > 1024 then
    some (env.NewLocAppError (str "Organisation.IsValid")
      (str "model.organisation.is_valid.description.app_error")
      (str "id=" ++ FormatUint organisation.IDOrganisation))
  else none

/-- A lowercase ASCII letter or a digit. -/
def isLowerAlnum (c : Nat) : Prop := (97 ≤ c ∧ c ≤ 122) ∨ (48 ≤ c ∧ c ≤ 57)

/-- The first and the last byte of a string are a lowercase letter or a digit. -/
def endsLowerAlnum (s : GoString) : Prop :=
  (∃ x, s.head? = some x ∧ isLowerAlnum x) ∧ (∃ y, s.getLast? = some y ∧ isLowerAlnum y)

/-- An organisation with the given name and description. -/
def orgNamed (name description : GoString) : Organisation where
  IDOrganisation := 7
  DockerStack := 0
  OrganisationName := name
  Public := false
  Description := description
  Avatar := []
  Domain := []

/-! ## Expiry helpers: ExpireIn and the reading of `exp` -/

/-- The constant `time.Second`: a `Duration` counts nanoseconds. -/
def Second : Int := 1000000000

/-- The method `Duration.Seconds`, `float64(sec) + float64(nsec)/1e9`: the two
conversions are exact, and `round64` is the rounding of a `float64` result (of the
division, then of the sum) to a value a double holds. -/
def Duration.Seconds (round64 : ℚ → ℚ) (d : Int) : Float64 :=
  let sec := Int.tdiv d Second
  let nsec := Int.tmod d Second
  .finite (round64 ((sec : ℚ) + round64 ((nsec : ℚ) / 1000000000)))

/-- The sum of two `int64` as the machine keeps it. -/
def wrapInt64 (x : Int) : Int := (x + 2 ^ 63) % 2 ^ 64 - 2 ^ 63

/-- The function `ExpireIn`. -/
def ExpireIn (env : Env) (round64 : ℚ → ℚ) (tm : Int) : Int :=
  wrapInt64 (EpochNow env + int64OfFloat64 env (Duration.Seconds round64 tm))

/-- A rounding is monotone, as rounding to the nearest double is. -/
def RoundMonotone (round64 : ℚ → ℚ) : Prop := ∀ a b : ℚ, a ≤ b → round64 a ≤ round64 b

/-- A rounding leaves the values a double holds as they are: `m * 2 ^ k` with a
mantissa `m` below `2 ^ 53` in absolute value and an exponent in the range of doubles. -/
def RoundExact (round64 : ℚ → ℚ) : Prop :=
  ∀ m k : Int, |m| < 2 ^ 53 → -1074 ≤ k → k ≤ 970 →
    round64 ((m : ℚ) * (2 : ℚ) ^ k) = (m : ℚ) * (2 : ℚ) ^ k

/-- The rounding that changes nothing; it agrees with the rounding to doubles on
every value a double holds, such as 0.5 and the whole numbers of seconds. -/
def exactRound : ℚ → ℚ := fun q => q

/-- A decimal digit. -/
def isDigit (c : Nat) : Bool := 48 ≤ c && c ≤ 57

/-- The number a run of decimal digits denotes, most significant digit first. -/
def digitsValue (ds : GoString) : Nat := ds.foldl (fun n c => n * 10 + (c - 48)) 0

/-- The integer a decimal literal denotes: an optional sign, then one or more digits
and nothing else; `none` for any other text. -/
def decimalValue (s : GoString) : Option Int :=
  match s with
  | [] => none
  | c :: cs =>
    let body := if c = 43 ∨ c = 45 then cs else c :: cs
    if body ≠ [] ∧ body.all isDigit = true then
      some (if c = 45 then -(digitsValue body : Int) else (digitsValue body : Int))
    else none

/-- The text of a number without its optional sign. -/
def unsignedPart (s : GoString) : GoString :=
  match s with
  | [] => []
  | c :: cs => if c = 43 ∨ c = 45 then cs else c :: cs

/-- The nearest `int64` to an integer. -/
def clampInt64 (n : Int) : Int :=
  if n ≥ 2 ^ 63 then 2 ^ 63 - 1 else if n < -2 ^ 63 then -2 ^ 63 else n

/-- The integer fits an `int64`. -/
def fitsInt64 (n : Int) : Prop := -2 ^ 63 ≤ n ∧ n < 2 ^ 63

instance (n : Int) : Decidable (fitsInt64 n) := by
  unfold fitsInt64; infer_instance

/-- The value truncated toward zero. -/
def truncate (q : ℚ) : Int := if 0 ≤ q then ⌊q⌋ else ⌈q⌉

/-- The reading of `exp` in the words of the specification: the integer itself for
an `int64`, the value truncated toward zero for a `float64` (nothing is said of NaN
and the infinities), the parsed integer for a `json.Number`, and 0 for a value of
any other type or a `json.Number` that does not parse as an `int64`. -/
def IsExpired.expSpec : Value → Option Int
  | .int64 n => some n
  | .float64 (.finite q) => some (truncate q)
  | .float64 _ => none
  | .jsonNumber s =>
    match decimalValue s with
    | some n => if fitsInt64 n then some n else some 0
    | none => some 0
  | _ => some 0

/-- The answer of `IsExpired` in the words of the specification. -/
def IsExpired.spec (env : Env) (t : Token) : Prop :=
  ∃ v e, t.Claims.get (str "exp") = some v ∧ IsExpired.expSpec v = some e ∧
    e < EpochNow env

/-- The number a JSON number text without exponent denotes: an optional `-`, one or
more digits and, optionally, a `.` with one or more digits; `none` for another text. -/
def numberValue (s : GoString) : Option ℚ :=
  let body := if s.head? = some 45 then s.drop 1 else s
  let whole := body.takeWhile isDigit
  let fraction := (body.dropWhile isDigit).drop 1
  if whole ≠ [] ∧
      (body.dropWhile isDigit = [] ∨
        ((body.dropWhile isDigit).head? = some 46 ∧ fraction ≠ [] ∧
          fraction.all isDigit = true)) then
    let magnitude :=
      mkRat (digitsValue whole * 10 ^ fraction.length + digitsValue fraction)
        (10 ^ fraction.length)
    some (if s.head? = some 45 then -magnitude else magnitude)
  else none

/-- The numeric value of an `exp` claim: that of an `int64`, of a finite `float64`
and of the text of a `json.Number`; a value of another type has none. -/
def expValue : Value → Option ℚ
  | .int64 n => some (n : ℚ)
  | .float64 (.finite q) => some q
  | .jsonNumber s => numberValue s
  | _ => none

/-- A valid HS256 user token whose `exp` is the `json.Number` "2000000000.0". -/
def fractionToken : Token :=
  hsToken (str "frac") (authClaims (.jsonNumber (str "2000000000.0")))

/-- An HS256 configuration whose parser keeps numbers as `json.Number`. -/
def jsonNumberAuth : JwtAuth :=
  { hs256 with parser := some { ValidMethods := [], UseJSONNumber := true } }

/-- An environment whose parser decodes the string "frac" to `fractionToken`
without error, with the clock at 1500000000. -/
def fractionEnv : Env := tableEnv [(str "frac", (some fractionToken, none))]

/-- A token whose `exp` is the given value. -/
def expToken (v : Value) : Token := hsToken (str "t") [(str "exp", v)]

/-! ## Lemmas -/

theorem Verify_eq (ja : JwtAuth) (env : Env) (al : List GoString) (next : Handler)
    (w : ResponseWriter) (r : Request) :
    ja.Verify env al next w r =
      next w (r.WithContext (ja.SetContext r.ctx
        (Verify.checks ja env (ja.Decode env (Verify.tokenStr env al r))).1
        (Verify.checks ja env (ja.Decode env (Verify.tokenStr env al r))).2)) := by
  unfold JwtAuth.Verify Verify.checks
  rcases h : ja.Decode env (Verify.tokenStr env al r) with ⟨t, e⟩
  cases e with
  | some e =>
    by_cases he : e.Error = str "token is expired" <;> simp [Id.run, h, he]
  | none =>
    cases t with
    | none => simp [Id.run, h]
    | some tok =>
      by_cases h1 : tok.Valid = false ∨ tok.Method ≠ ja.signer
      · simp [Id.run, h, h1]
      · by_cases h2 : ja.IsExpired env tok = true
        · simp [Id.run, h, h1, h2]
        · simp [Id.run, h, h1, h2]

theorem firstNonEmpty_append (a b : List GoString) :
    firstNonEmpty (a ++ b) =
      if firstNonEmpty a ≠ [] then firstNonEmpty a else firstNonEmpty b := by
  induction a with
  | nil => simp [firstNonEmpty]
  | cons s ss ih =>
    by_cases hs : s = []
    · simp [firstNonEmpty, hs, ih]
    · simp [firstNonEmpty, hs]

theorem aliasLoop_nil_start (query : Values) (al : List GoString) :
    Verify.aliasLoop query al [] = firstNonEmpty (al.map query.Get) := by
  induction al with
  | nil => simp [Verify.aliasLoop, firstNonEmpty]
  | cons p ps ih =>
    by_cases hp : query.Get p = []
    · simp [Verify.aliasLoop, firstNonEmpty, hp, ih]
    · simp [Verify.aliasLoop, firstNonEmpty, hp]

theorem firstNonEmpty_eq_nil_of_all (l : List GoString) (h : ∀ s ∈ l, s = []) :
    firstNonEmpty l = [] := by
  induction l with
  | nil => rfl
  | cons s ss ih =>
    have hs : s = [] := h s (List.mem_cons_self _ _)
    have hss : ∀ x ∈ ss, x = [] := fun x hx => h x (List.mem_cons_of_mem _ hx)
    simp [firstNonEmpty, hs, ih hss]

theorem ite_eq_nil_self (v : GoString) : (if v = [] then ([] : GoString) else v) = v := by
  by_cases h : v = [] <;> simp [h]

theorem tokenStr_eq_firstNonEmpty (env : Env) (al : List GoString) (r : Request) :
    Verify.tokenStr env al r = firstNonEmpty (tokenSources env al r) := by
  have h1 : (if r.query.Get (str "jwt") = [] ∧ al.length > 0 then
        Verify.aliasLoop r.query al (r.query.Get (str "jwt"))
      else r.query.Get (str "jwt")) =
      firstNonEmpty ([r.query.Get (str "jwt")] ++ al.map r.query.Get) := by
    by_cases hq : r.query.Get (str "jwt") = []
    · rw [hq]
      cases al with
      | nil => simp [firstNonEmpty]
      | cons p ps =>
        rw [if_pos ⟨rfl, by simp⟩, aliasLoop_nil_start]
        simp [firstNonEmpty]
    · simp [firstNonEmpty, hq]
  unfold tokenSources
  rw [firstNonEmpty_append]
  unfold Verify.tokenStr
  simp only []
  rw [h1]
  generalize firstNonEmpty ([r.query.Get (str "jwt")] ++ al.map r.query.Get) = x
  by_cases hx : x = []
  · by_cases hb : bearerAccepted env (r.header.Get (str "Authorization"))
    · have hb2 := hb
      unfold bearerAccepted at hb2
      have hne : List.drop 7 (r.header.Get (str "Authorization")) ≠ [] := by
        intro h0
        have := List.drop_eq_nil_iff.mp h0
        omega
      simp [firstNonEmpty, hx, bearerRemainder, hb, hb2, hne, cookieValue]
    · have hb2 := hb
      unfold bearerAccepted at hb2
      cases hc : r.Cookie (str "jwt") <;>
        simp [firstNonEmpty, hx, bearerRemainder, hb, hb2, cookieValue, hc, ite_eq_nil_self]
  · simp [hx]

theorem tokenStr_eq_nil_of_noTokenSource (env : Env) (al : List GoString) (r : Request)
    (h : NoTokenSource env al r) : Verify.tokenStr env al r = [] := by
  obtain ⟨hq, hal, hb, hc⟩ := h
  rw [tokenStr_eq_firstNonEmpty]
  apply firstNonEmpty_eq_nil_of_all
  intro s hs
  simp only [tokenSources, List.mem_append, List.mem_cons, List.mem_singleton,
    List.mem_map, List.not_mem_nil, or_false] at hs
  rcases hs with (hs | ⟨p, hp, rfl⟩) | hs | hs
  · rw [hs, hq]
  · exact hal p hp
  · rw [hs]; simp [bearerRemainder, hb]
  · rw [hs]; rcases hc with hc | hc <;> simp [cookieValue, hc]

theorem Authenticator_of_error (ja : JwtAuth) (next : Handler) (w : ResponseWriter)
    (r : Request) (ctx : Context) (t : Option Token) (e : GoError) :
    Authenticator next w (r.WithContext (ja.SetContext ctx t (some e))) =
      renderJSON w 401
        (str "Token not found. You Are not allowed to proceed without token.") := by
  simp [Authenticator, JwtAuth.SetContext, Context.WithValue, Context.Value,
    Request.WithContext, Any.ofError, Any.assertError]

theorem jwtErrorKey_ne_jwtTokenKey : (jwtErrorKey == jwtTokenKey) = false := by decide

theorem Authenticator_of_token (ja : JwtAuth) (next : Handler) (w : ResponseWriter)
    (r : Request) (ctx : Context) (t : Token) (hv : t.Valid = true)
    (ht : t.Claims.get (str "type") = some (.string (str "userauth"))) :
    Authenticator next w (r.WithContext (ja.SetContext ctx (some t) none)) =
      next w (r.WithContext (ja.SetContext ctx (some t) none)) := by
  simp [Authenticator, JwtAuth.SetContext, Context.WithValue, Context.Value,
    Request.WithContext, Any.ofError, Any.assertError, Any.assertToken,
    jwtErrorKey_ne_jwtTokenKey, hv, ht]

theorem str_BEARER : str "BEARER" = [66, 69, 65, 82, 69, 82] := by decide

theorem IsBearerScheme.toUpper (env : Env) (scheme : GoString) (h : IsBearerScheme scheme) :
    scheme.length = 6 ∧ ToUpper env scheme = str "BEARER" := by
  unfold IsBearerScheme at h
  rw [str_BEARER] at h ⊢
  rcases List.forall₂_cons_right_iff.mp h with ⟨c1, s1, h1, t1, rfl⟩
  rcases List.forall₂_cons_right_iff.mp t1 with ⟨c2, s2, h2, t2, rfl⟩
  rcases List.forall₂_cons_right_iff.mp t2 with ⟨c3, s3, h3, t3, rfl⟩
  rcases List.forall₂_cons_right_iff.mp t3 with ⟨c4, s4, h4, t4, rfl⟩
  rcases List.forall₂_cons_right_iff.mp t4 with ⟨c5, s5, h5, t5, rfl⟩
  rcases List.forall₂_cons_right_iff.mp t5 with ⟨c6, s6, h6, t6, rfl⟩
  have hnil : s6 = [] := by cases t6; rfl
  subst hnil
  refine ⟨rfl, ?_⟩
  rcases h1 with rfl | rfl <;> rcases h2 with rfl | rfl <;> rcases h3 with rfl | rfl <;>
    rcases h4 with rfl | rfl <;> rcases h5 with rfl | rfl <;> rcases h6 with rfl | rfl <;>
    simp [ToUpper, asciiToUpper]

/-- An `int64` value of `exp` is read as it is. -/
theorem IsExpired.exp_int64 (env : Env) (n : Int) : IsExpired.exp env (.int64 n) = n := rfl

/-- A non-negative `float64` value of `exp` that is below the clock is read as an
integer below the clock (the clock being an `int64`). -/
theorem IsExpired.exp_float64_lt (env : Env) (q : ℚ) (h0 : 0 ≤ q)
    (hlt : q < (EpochNow env : ℚ)) (hnow : EpochNow env ≤ 2 ^ 63) :
    IsExpired.exp env (.float64 (.finite q)) < EpochNow env := by
  have hnum : 0 ≤ q.num := Rat.num_nonneg.mpr h0
  have hfl : Int.tdiv q.num q.den = ⌊q⌋ := by
    rw [Rat.floor_def, Int.tdiv_eq_ediv hnum (by exact_mod_cast Nat.zero_le _)]
  have h1 : ⌊q⌋ < EpochNow env := Int.floor_lt.mpr hlt
  have h2 : 0 ≤ ⌊q⌋ := Int.floor_nonneg.mpr h0
  simp only [IsExpired.exp, int64OfFloat64, hfl]
  rw [if_pos ⟨by omega, by omega⟩]
  exact h1

theorem SetContext_Value_token (ja : JwtAuth) (ctx : Context) (t : Option Token)
    (e : Option GoError) : (ja.SetContext ctx t e).Value jwtTokenKey = .token t := by
  simp [JwtAuth.SetContext, Context.WithValue, Context.Value, jwtErrorKey_ne_jwtTokenKey]

theorem SetContext_Value_error (ja : JwtAuth) (ctx : Context) (t : Option Token)
    (e : Option GoError) : (ja.SetContext ctx t e).Value jwtErrorKey = Any.ofError e := by
  simp [JwtAuth.SetContext, Context.WithValue, Context.Value]

theorem WithContext_ctx (r : Request) (ctx : Context) : (r.WithContext ctx).ctx = ctx := rfl

theorem WithContext_Value_token (ja : JwtAuth) (r : Request) (t : Option Token)
    (e : Option GoError) :
    (r.WithContext (ja.SetContext r.ctx t e)).ctx.Value jwtTokenKey = .token t := by
  rw [WithContext_ctx, SetContext_Value_token]

theorem WithContext_Value_error (ja : JwtAuth) (r : Request) (t : Option Token)
    (e : Option GoError) :
    (r.WithContext (ja.SetContext r.ctx t e)).ctx.Value jwtErrorKey = Any.ofError e := by
  rw [WithContext_ctx, SetContext_Value_error]

/-! ## The claims -/

/-- C1 (code defect). On a request without any token source, over a parser that
rejects the empty string the way jwt-go does, the context `Verify` hands to the next
handler holds the parser's own error and not `ErrUnauthorized`: the assignment
`err = ErrUnauthorized` is overwritten by the result of `Decode`. -/
theorem C1_no_token_outcome_is_decode_error :
    NoTokenSource (tableEnv []) [] emptyRequest ∧
    (∀ next w, hs256.Verify (tableEnv []) [] next w emptyRequest =
      next w (emptyRequest.WithContext
        (hs256.SetContext [] none (some (.other malformedMsg))))) ∧
    (hs256.SetContext [] none (some (.other malformedMsg))).Value jwtErrorKey =
      .error (.other malformedMsg) ∧
    (hs256.SetContext [] none (some (.other malformedMsg))).Value jwtErrorKey ≠
      .error .ErrUnauthorized := by
  refine ⟨⟨by decide, by simp, by decide, by decide⟩, ?_, by decide, by decide⟩
  intro next w
  rw [Verify_eq]
  rfl

/-- C2. For every request in which no source yields a token, over a parser that
returns an error for the empty string (jwt-go does: a token has three segments),
`Verify` followed by `Authenticator` renders a 401 response, the same for every
downstream handler, which is therefore not called. -/
theorem C2_no_token_gives_401 (env : Env) (ja : JwtAuth) (al : List GoString)
    (next : Handler) (w : ResponseWriter) (r : Request)
    (hno : NoTokenSource env al r) (hlib : (ja.Decode env []).2 ≠ none) :
    ja.Verify env al (Authenticator next) w r =
      renderJSON w 401
        (str "Token not found. You Are not allowed to proceed without token.") := by
  rw [Verify_eq, tokenStr_eq_nil_of_noTokenSource env al r hno]
  rcases hd : ja.Decode env [] with ⟨t, e⟩
  rw [hd] at hlib
  cases e with
  | none => exact absurd rfl hlib
  | some e =>
    by_cases he : e.Error = str "token is expired"
    · simp only [Verify.checks, he, if_true]
      exact Authenticator_of_error ja next w r r.ctx t _
    · simp only [Verify.checks, he, if_false]
      exact Authenticator_of_error ja next w r r.ctx t _

/-- Witness of C2 on the empty request. -/
theorem C2_no_token_gives_401_witness :
    NoTokenSource (tableEnv []) [] emptyRequest ∧
    (hs256.Decode (tableEnv []) []).2 ≠ none ∧
    hs256.Verify (tableEnv []) [] (Authenticator okHandler) emptyWriter emptyRequest =
      renderJSON emptyWriter 401
        (str "Token not found. You Are not allowed to proceed without token.") :=
  ⟨⟨by decide, by simp, by decide, by decide⟩, by decide,
    C2_no_token_gives_401 (tableEnv []) hs256 [] okHandler emptyWriter emptyRequest
      ⟨by decide, by simp, by decide, by decide⟩ (by decide)⟩

/-- C3. For every request whose located token string decodes without error to a
token that is valid, uses the configured signing method, is not expired and carries
the claim `type` = "userauth", `Verify` followed by `Authenticator` calls the next
handler, with the writer untouched and the outcome (token, no error) in the context. -/
theorem C3_valid_token_forwarded (env : Env) (ja : JwtAuth) (al : List GoString)
    (next : Handler) (w : ResponseWriter) (r : Request) (t : Token)
    (hd : ja.Decode env (Verify.tokenStr env al r) = (some t, none))
    (hv : t.Valid = true) (hm : t.Method = ja.signer)
    (hexp : ja.IsExpired env t = false)
    (htype : t.Claims.get (str "type") = some (.string (str "userauth"))) :
    ja.Verify env al (Authenticator next) w r =
      next w (r.WithContext (ja.SetContext r.ctx (some t) none)) := by
  rw [Verify_eq, hd]
  simp only [Verify.checks, hv, hm, hexp]
  simp only [Bool.true_eq_false, ne_eq, not_true_eq_false, or_self, if_false,
    Bool.false_eq_true]
  exact Authenticator_of_token ja next w r r.ctx t hv htype

/-- Witness of C3: a good token in the `jwt` cookie reaches the next handler. -/
theorem C3_valid_token_forwarded_witness :
    hs256.Verify demoEnv [] (Authenticator okHandler) emptyWriter
        (cookieRequest (str "good")) =
      okHandler emptyWriter ((cookieRequest (str "good")).WithContext
        (hs256.SetContext (cookieRequest (str "good")).ctx (some goodToken) none)) :=
  C3_valid_token_forwarded demoEnv hs256 [] okHandler emptyWriter
    (cookieRequest (str "good")) goodToken (by decide) (by decide) (by decide)
    (by decide) (by decide)

/-- C4. For every token that decodes without error, is valid and uses the configured
signing method, and whose `exp` claim, read as the integer `IsExpired` compares, is
strictly less than the current epoch seconds, `Verify` writes the outcome
(token, ErrExpired), and the `Authenticator` that follows renders 401 whatever the
next handler is. -/
theorem C4_expired_token_rejected (env : Env) (ja : JwtAuth) (al : List GoString)
    (w : ResponseWriter) (r : Request) (t : Token) (v : Value)
    (hd : ja.Decode env (Verify.tokenStr env al r) = (some t, none))
    (hv : t.Valid = true) (hm : t.Method = ja.signer)
    (hexp : t.Claims.get (str "exp") = some v)
    (hlt : IsExpired.exp env v < EpochNow env) :
    (∀ next, ja.Verify env al next w r =
      next w (r.WithContext (ja.SetContext r.ctx (some t) (some .ErrExpired)))) ∧
    (∀ next, ja.Verify env al (Authenticator next) w r =
      renderJSON w 401
        (str "Token not found. You Are not allowed to proceed without token.")) := by
  have hx : ja.IsExpired env t = true := by
    simp [JwtAuth.IsExpired, hexp, hlt]
  have hc : Verify.checks ja env (some t, none) = (some t, some .ErrExpired) := by
    simp [Verify.checks, hv, hm, hx]
  constructor
  · intro next
    rw [Verify_eq, hd, hc]
  · intro next
    rw [Verify_eq, hd, hc]
    exact Authenticator_of_error ja next w r r.ctx (some t) _

/-- Witness of C4: a token with `exp` = 1000000000 at clock 1500000000. -/
theorem C4_expired_token_rejected_witness :
    hs256.Verify demoEnv [] okHandler emptyWriter (queryRequest (str "old")) =
      okHandler emptyWriter ((queryRequest (str "old")).WithContext
        (hs256.SetContext (queryRequest (str "old")).ctx (some oldToken)
          (some .ErrExpired))) ∧
    hs256.Verify demoEnv [] (Authenticator okHandler) emptyWriter
        (queryRequest (str "old")) =
      renderJSON emptyWriter 401
        (str "Token not found. You Are not allowed to proceed without token.") :=
  ⟨(C4_expired_token_rejected demoEnv hs256 [] emptyWriter (queryRequest (str "old"))
      oldToken (.float64 (.finite 1000000000)) (by decide) (by decide) (by decide)
      (by decide) (by decide)).1 okHandler,
   (C4_expired_token_rejected demoEnv hs256 [] emptyWriter (queryRequest (str "old"))
      oldToken (.float64 (.finite 1000000000)) (by decide) (by decide) (by decide)
      (by decide) (by decide)).2 okHandler⟩

/-- C5. Whenever `Decode` returns no error but the token is nil, or its `Valid` flag
is false, or its signing method is not the configured signer, `Verify` writes the
outcome (token, ErrUnauthorized): the request it hands to the next handler holds the
token under `jwtTokenKey` and `ErrUnauthorized` under `jwtErrorKey`. -/
theorem C5_invalid_token_unauthorized (env : Env) (ja : JwtAuth) (al : List GoString)
    (next : Handler) (w : ResponseWriter) (r : Request) (t : Option Token)
    (hd : ja.Decode env (Verify.tokenStr env al r) = (t, none))
    (hbad : t = none ∨ ∃ tok, t = some tok ∧ (tok.Valid = false ∨ tok.Method ≠ ja.signer)) :
    ja.Verify env al next w r =
      next w (r.WithContext (ja.SetContext r.ctx t (some .ErrUnauthorized))) ∧
    (r.WithContext (ja.SetContext r.ctx t (some .ErrUnauthorized))).ctx.Value jwtTokenKey =
      .token t ∧
    (r.WithContext (ja.SetContext r.ctx t (some .ErrUnauthorized))).ctx.Value jwtErrorKey =
      .error .ErrUnauthorized := by
  refine ⟨?_, ?_, ?_⟩
  · rw [Verify_eq, hd]
    rcases hbad with rfl | ⟨tok, rfl, hb⟩
    · rfl
    · simp only [Verify.checks, hb, if_true]
  · simp [Request.WithContext, JwtAuth.SetContext, Context.WithValue, Context.Value,
      jwtErrorKey_ne_jwtTokenKey]
  · simp [Request.WithContext, JwtAuth.SetContext, Context.WithValue, Context.Value,
      Any.ofError]

/-- Witness of C5: an RS256 token checked by an HS256 configuration. -/
theorem C5_invalid_token_unauthorized_witness :
    hs256.Verify demoEnv [] okHandler emptyWriter (queryRequest (str "rs")) =
      okHandler emptyWriter ((queryRequest (str "rs")).WithContext
        (hs256.SetContext (queryRequest (str "rs")).ctx (some rsToken)
          (some .ErrUnauthorized))) ∧
    ((queryRequest (str "rs")).WithContext
        (hs256.SetContext (queryRequest (str "rs")).ctx (some rsToken)
          (some .ErrUnauthorized))).ctx.Value jwtTokenKey = .token (some rsToken) ∧
    ((queryRequest (str "rs")).WithContext
        (hs256.SetContext (queryRequest (str "rs")).ctx (some rsToken)
          (some .ErrUnauthorized))).ctx.Value jwtErrorKey = .error .ErrUnauthorized :=
  ⟨(C5_invalid_token_unauthorized demoEnv hs256 [] okHandler emptyWriter
      (queryRequest (str "rs")) (some rsToken) (by decide)
      (Or.inr ⟨rsToken, rfl, Or.inr (by decide)⟩)).1, by decide, by decide⟩

/-- C6. Whenever `Decode` returns an error, `Verify` writes the token `Decode`
returned together with `ErrExpired` if the message of the error is exactly
"token is expired" and with the error of `Decode` otherwise: the request it hands to
the next handler holds that token under `jwtTokenKey` and that error under
`jwtErrorKey`. Nothing is asked of the token, so its validity, signing method and
`exp` play no part. -/
theorem C6_decode_error_outcome (env : Env) (ja : JwtAuth) (al : List GoString)
    (next : Handler) (w : ResponseWriter) (r : Request) (t : Option Token) (e : GoError)
    (hd : ja.Decode env (Verify.tokenStr env al r) = (t, some e)) :
    ja.Verify env al next w r =
      next w (r.WithContext (ja.SetContext r.ctx t
        (some (if e.Error = str "token is expired" then .ErrExpired else e)))) ∧
    (r.WithContext (ja.SetContext r.ctx t
        (some (if e.Error = str "token is expired" then .ErrExpired else e)))).ctx.Value
      jwtTokenKey = .token t ∧
    (r.WithContext (ja.SetContext r.ctx t
        (some (if e.Error = str "token is expired" then .ErrExpired else e)))).ctx.Value
      jwtErrorKey = .error (if e.Error = str "token is expired" then .ErrExpired else e) := by
  refine ⟨?_, ?_, ?_⟩
  · rw [Verify_eq, hd]
    by_cases he : e.Error = str "token is expired" <;> simp [Verify.checks, he]
  · simp [Request.WithContext, JwtAuth.SetContext, Context.WithValue, Context.Value,
      jwtErrorKey_ne_jwtTokenKey]
  · simp [Request.WithContext, JwtAuth.SetContext, Context.WithValue, Context.Value,
      Any.ofError]

/-- Witness of C6: a string the parser reports as expired; the context then holds
the token of `Decode`, whose `Valid` flag is false, and `ErrExpired`. -/
theorem C6_decode_error_outcome_witness :
    hs256.Verify demoEnv [] okHandler emptyWriter (queryRequest (str "stale")) =
      okHandler emptyWriter ((queryRequest (str "stale")).WithContext
        (hs256.SetContext (queryRequest (str "stale")).ctx
          (some { oldToken with Valid := false })
          (some (if GoError.Error (.other (str "token is expired")) =
            str "token is expired" then .ErrExpired
            else .other (str "token is expired"))))) ∧
    ((queryRequest (str "stale")).WithContext
        (hs256.SetContext (queryRequest (str "stale")).ctx
          (some { oldToken with Valid := false })
          (some (if GoError.Error (.other (str "token is expired")) =
            str "token is expired" then .ErrExpired
            else .other (str "token is expired"))))).ctx.Value jwtTokenKey =
      .token (some { oldToken with Valid := false }) ∧
    ((queryRequest (str "stale")).WithContext
        (hs256.SetContext (queryRequest (str "stale")).ctx
          (some { oldToken with Valid := false })
          (some (if GoError.Error (.other (str "token is expired")) =
            str "token is expired" then .ErrExpired
            else .other (str "token is expired"))))).ctx.Value jwtErrorKey =
      .error (if GoError.Error (.other (str "token is expired")) =
        str "token is expired" then .ErrExpired else .other (str "token is expired")) :=
  ⟨(C6_decode_error_outcome demoEnv hs256 [] okHandler emptyWriter
      (queryRequest (str "stale")) (some { oldToken with Valid := false })
      (.other (str "token is expired")) (by decide)).1, by decide, by decide⟩

/-- C7. The token string `Verify` decodes is the first non-empty value among, in
this order, the `jwt` query parameter, the alias parameters in the order supplied,
the bearer remainder of the Authorization header and the `jwt` cookie; it is the
string `Decode` is applied to; and a non-empty `jwt` query parameter is the string
decoded whatever the Authorization header carries. -/
theorem C7_token_source_priority (env : Env) (al : List GoString) (r : Request) :
    Verify.tokenStr env al r = firstNonEmpty (tokenSources env al r) ∧
    (∀ (ja : JwtAuth) (next : Handler) (w : ResponseWriter),
      ja.Verify env al next w r =
        next w (r.WithContext (ja.SetContext r.ctx
          (Verify.checks ja env
            (ja.Decode env (firstNonEmpty (tokenSources env al r)))).1
          (Verify.checks ja env
            (ja.Decode env (firstNonEmpty (tokenSources env al r)))).2))) ∧
    (r.query.Get (str "jwt") ≠ [] →
      firstNonEmpty (tokenSources env al r) = r.query.Get (str "jwt")) := by
  refine ⟨tokenStr_eq_firstNonEmpty env al r, ?_, ?_⟩
  · intro ja next w
    rw [Verify_eq, tokenStr_eq_firstNonEmpty]
  · intro hq
    simp [tokenSources, firstNonEmpty, hq]

/-- Witness of C7: the query parameter wins over a bearer header and a cookie, and
the first non-empty alias wins over a later one. -/
theorem C7_token_source_priority_witness :
    firstNonEmpty (tokenSources demoEnv []
      { emptyRequest with
        query := [(str "jwt", [str "good"])]
        header := [(str "Authorization", [str "Bearer old"])]
        cookies := [(str "jwt", str "rs")] }) = str "good" ∧
    Verify.tokenStr demoEnv [str "a", str "b", str "c"]
      { emptyRequest with
        query := [(str "c", [str "rs"]), (str "a", [str ""]), (str "b", [str "old"])]
        header := [(str "Authorization", [str "Bearer good"])] } = str "old" :=
  ⟨((C7_token_source_priority demoEnv []
      { emptyRequest with
        query := [(str "jwt", [str "good"])]
        header := [(str "Authorization", [str "Bearer old"])]
        cookies := [(str "jwt", str "rs")] }).2.2 (by decide)).trans (by decide),
   ((C7_token_source_priority demoEnv [str "a", str "b", str "c"]
      { emptyRequest with
        query := [(str "c", [str "rs"]), (str "a", [str ""]), (str "b", [str "old"])]
        header := [(str "Authorization", [str "Bearer good"])] }).1).trans (by decide)⟩

/-- C8 (code defect). The header value "Bearer:abc", with no query parameter and no
cookie, is accepted: the byte after the six-letter scheme is never inspected, and
the located token string is "abc", not the empty string. -/
theorem C8_bearer_without_space_accepted (env : Env) :
    (bearerRequest (str "Bearer:abc")).query.Get (str "jwt") = [] ∧
    (bearerRequest (str "Bearer:abc")).Cookie (str "jwt") = none ∧
    Verify.tokenStr env [] (bearerRequest (str "Bearer:abc")) = str "abc" ∧
    Verify.tokenStr env [] (bearerRequest (str "Bearer:abc")) ≠ [] := by
  have h : Verify.tokenStr env [] (bearerRequest (str "Bearer:abc")) = str "abc" := by
    simp [Verify.tokenStr, bearerRequest, emptyRequest, Values.Get, Request.Cookie,
      ToUpper, asciiToUpper, str]
  refine ⟨by decide, by decide, h, ?_⟩
  rw [h]
  decide

/-- C9. For every request with no non-empty `jwt` or alias query parameter whose
Authorization header is a six-letter scheme equal to "BEARER" ignoring case, one
space, then a non-empty string T, the located token string is T, which is the header
value without its first 7 bytes. -/
theorem C9_bearer_header_candidate (env : Env) (al : List GoString) (r : Request)
    (scheme T : GoString)
    (hq : r.query.Get (str "jwt") = []) (hal : ∀ p ∈ al, r.query.Get p = [])
    (hs : IsBearerScheme scheme) (hT : T ≠ [])
    (hh : r.header.Get (str "Authorization") = scheme ++ 32 :: T) :
    Verify.tokenStr env al r = T ∧
    T = (r.header.Get (str "Authorization")).drop 7 := by
  obtain ⟨hlen, hup⟩ := IsBearerScheme.toUpper env scheme hs
  have hdrop : (scheme ++ 32 :: T).drop 7 = T := by
    rw [List.drop_append_eq_append_drop]
    simp [hlen]
  have htake : (scheme ++ 32 :: T).take 6 = scheme := by
    rw [List.take_append_eq_append_take]
    simp [hlen]
  have hTlen : 0 < T.length := List.length_pos.mpr hT
  have hacc : bearerAccepted env (scheme ++ 32 :: T) := by
    refine ⟨?_, by rw [htake, hup]⟩
    simp only [List.length_append, List.length_cons, hlen]
    omega
  refine ⟨?_, by rw [hh, hdrop]⟩
  rw [tokenStr_eq_firstNonEmpty]
  unfold tokenSources
  rw [firstNonEmpty_append]
  have h0 : firstNonEmpty ([r.query.Get (str "jwt")] ++ al.map r.query.Get) = [] := by
    apply firstNonEmpty_eq_nil_of_all
    intro s hs
    simp only [List.mem_append, List.mem_singleton, List.mem_map] at hs
    rcases hs with hs | ⟨p, hp, rfl⟩
    · rw [hs, hq]
    · exact hal p hp
  rw [h0, hh]
  simp [firstNonEmpty, bearerRemainder, hacc, hdrop, hT]

/-- Witness of C9: "bearer abc.def.ghi" gives "abc.def.ghi". -/
theorem C9_bearer_header_candidate_witness :
    Verify.tokenStr demoEnv [] (bearerRequest (str "bearer abc.def.ghi")) =
      str "abc.def.ghi" ∧
    str "abc.def.ghi" =
      ((bearerRequest (str "bearer abc.def.ghi")).header.Get (str "Authorization")).drop 7 :=
  C9_bearer_header_candidate demoEnv [] (bearerRequest (str "bearer abc.def.ghi"))
    (str "bearer") (str "abc.def.ghi") (by decide) (by simp)
    (by unfold IsBearerScheme; decide) (by decide) (by decide)

/-- C10 (code defect). `Verifier` is `Verify` with the one alias "" and so also reads
the query parameter whose name is empty: on the query string `=tok`, with no `jwt`
parameter, no Authorization header and no cookie, the located token string is "tok". -/
theorem C10_verifier_reads_empty_named_parameter (env : Env) :
    (∀ (ja : JwtAuth) (next : Handler) (w : ResponseWriter) (r : Request),
      ja.Verifier env next w r = ja.Verify env [str ""] next w r) ∧
    ({ emptyRequest with query := [(str "", [str "tok"])] } : Request).query.Get
      (str "jwt") = [] ∧
    ({ emptyRequest with query := [(str "", [str "tok"])] } : Request).header.Get
      (str "Authorization") = [] ∧
    ({ emptyRequest with query := [(str "", [str "tok"])] } : Request).Cookie
      (str "jwt") = none ∧
    Verify.tokenStr env [str ""]
      { emptyRequest with query := [(str "", [str "tok"])] } = str "tok" := by
  refine ⟨fun _ _ _ _ => rfl, by decide, by decide, by decide, ?_⟩
  simp [Verify.tokenStr, emptyRequest, Values.Get, Verify.aliasLoop, str]

/-! ## Lemmas on the gates -/

theorem renderJSON_ne_self (w : ResponseWriter) (status : Nat) (v : GoString) :
    renderJSON w status v ≠ w := by
  intro h
  have hl := congrArg (fun x => x.rendered.length) h
  simp [renderJSON] at hl

theorem Authenticator_eq_claimGate (next : Handler) (w : ResponseWriter) (r : Request) :
    Authenticator next w r =
      claimGate (str "userauth") (str "Token is not an user auth one") next w r := by
  unfold Authenticator claimGate
  simp only []
  generalize r.ctx.Value jwtErrorKey = a
  generalize r.ctx.Value jwtTokenKey = b
  cases a <;> rcases b with _ | _ | (_ | t) | _ <;>
    simp [Any.assertError, Any.assertToken] <;>
    (cases hv : t.Valid <;> simp)

theorem allowUserCreationFromToken_eq_claimGate (next : Handler) (w : ResponseWriter)
    (r : Request) :
    allowUserCreationFromToken next w r =
      claimGate (str "invitation") (str "Token is not an invitation one") next w r := by
  unfold allowUserCreationFromToken claimGate
  simp only []
  generalize r.ctx.Value jwtErrorKey = a
  generalize r.ctx.Value jwtTokenKey = b
  cases a <;> rcases b with _ | _ | (_ | t) | _ <;>
    simp [Any.assertError, Any.assertToken] <;>
    (cases hv : t.Valid <;> simp)

theorem claimGate_of_error (expected rejection : GoString) (next : Handler)
    (w : ResponseWriter) (r : Request) (e : GoError)
    (he : r.ctx.Value jwtErrorKey = .error e) :
    claimGate expected rejection next w r =
      renderJSON w 401
        (str "Token not found. You Are not allowed to proceed without token.") := by
  simp [claimGate, he]

theorem claimGate_of_unusable (expected rejection : GoString) (next : Handler)
    (w : ResponseWriter) (r : Request)
    (hne : ctxNoError r.ctx) (hu : ctxTokenUnusable r.ctx) :
    claimGate expected rejection next w r =
      renderJSON w 401 (str "token is not valid or does not exist") := by
  unfold claimGate
  have h1 : ∀ e, r.ctx.Value jwtErrorKey ≠ .error e := hne
  cases ha : r.ctx.Value jwtErrorKey with
  | error e => exact absurd ha (h1 e)
  | nil | token _ | foreign _ =>
    simp only []
    rcases hu with hu | hu | ⟨t, hu, hv⟩
    · cases hb : r.ctx.Value jwtTokenKey with
      | token t => exact absurd hb (hu t)
      | nil | error _ | foreign _ => rfl
    · rw [hu]
    · rw [hu]; simp [hv]

theorem claimGate_of_valid (expected rejection : GoString) (next : Handler)
    (w : ResponseWriter) (r : Request) (t : Token)
    (hne : ctxNoError r.ctx) (ht : r.ctx.Value jwtTokenKey = .token (some t))
    (hv : t.Valid = true) :
    claimGate expected rejection next w r =
      match t.Claims.get (str "type") with
      | none => renderJSON w 401 (str "Token is not valid. Type is undifined")
      | some v => if v = .string expected then next w r else renderJSON w 401 rejection := by
  unfold claimGate
  have h1 : ∀ e, r.ctx.Value jwtErrorKey ≠ .error e := hne
  cases ha : r.ctx.Value jwtErrorKey with
  | error e => exact absurd ha (h1 e)
  | nil | token _ | foreign _ => simp [ht, hv]

theorem ctxNoError_of_nil (ctx : Context) (h : ctx.Value jwtErrorKey = .nil) :
    ctxNoError ctx := by
  intro e he
  rw [h] at he
  cases he

theorem IsExpired_eq_false_iff (ja : JwtAuth) (env : Env) (t : Token) :
    ja.IsExpired env t = false ↔
      (t.Claims.get (str "exp") = none ∨
        ∃ v, t.Claims.get (str "exp") = some v ∧ EpochNow env ≤ IsExpired.exp env v) := by
  unfold JwtAuth.IsExpired
  cases h : t.Claims.get (str "exp") with
  | none => simp
  | some v => simp

theorem checks_error_eq_none_iff (ja : JwtAuth) (env : Env)
    (d : Option Token × Option GoError) :
    (Verify.checks ja env d).2 = none ↔
      ∃ t, d = (some t, none) ∧ t.Valid = true ∧ t.Method = ja.signer ∧
        ja.IsExpired env t = false := by
  rcases d with ⟨t, e⟩
  cases e with
  | some e =>
    by_cases he : e.Error = str "token is expired" <;> simp [Verify.checks, he]
  | none =>
    cases t with
    | none => simp [Verify.checks]
    | some t =>
      by_cases hv : t.Valid = true <;> by_cases hm : t.Method = ja.signer <;>
        by_cases hx : ja.IsExpired env t = true <;> simp [Verify.checks, hv, hm, hx]

theorem checks_token_of_error_none (ja : JwtAuth) (env : Env)
    (d : Option Token × Option GoError) (h : (Verify.checks ja env d).2 = none) :
    (Verify.checks ja env d).1 = d.1 ∧ d.1 ≠ none := by
  obtain ⟨t, rfl, hv, hm, hx⟩ := (checks_error_eq_none_iff ja env d).mp h
  simp [Verify.checks, hv, hm, hx]

/-! ## The claims, continued -/

/-- C11. For every request, whatever state the checks end in, `Verify` calls the
next handler once, on the writer as it got it and on the request with the new
context: that request carries the context `SetContext` made, which holds the token
under `jwtTokenKey` and the error or nil under `jwtErrorKey`, and the query, header
and cookies of the request are as before. The result of `Verify` is the result of
that one call: a next handler that writes nothing leaves the writer as it was, and
one that renders a response leaves exactly that response added, so `Verify` writes
no response of its own. -/
theorem C11_verify_annotates_and_forwards (env : Env) (ja : JwtAuth)
    (al : List GoString) (r : Request) :
    (∀ (next : Handler) (w : ResponseWriter),
      ja.Verify env al next w r =
        next w (r.WithContext (ja.SetContext r.ctx
          (Verify.checks ja env (ja.Decode env (Verify.tokenStr env al r))).1
          (Verify.checks ja env (ja.Decode env (Verify.tokenStr env al r))).2))) ∧
    (r.WithContext (ja.SetContext r.ctx
        (Verify.checks ja env (ja.Decode env (Verify.tokenStr env al r))).1
        (Verify.checks ja env (ja.Decode env (Verify.tokenStr env al r))).2)).ctx =
      ja.SetContext r.ctx
        (Verify.checks ja env (ja.Decode env (Verify.tokenStr env al r))).1
        (Verify.checks ja env (ja.Decode env (Verify.tokenStr env al r))).2 ∧
    (r.WithContext (ja.SetContext r.ctx
        (Verify.checks ja env (ja.Decode env (Verify.tokenStr env al r))).1
        (Verify.checks ja env (ja.Decode env (Verify.tokenStr env al r))).2)).ctx.Value
      jwtTokenKey =
        .token (Verify.checks ja env (ja.Decode env (Verify.tokenStr env al r))).1 ∧
    (r.WithContext (ja.SetContext r.ctx
        (Verify.checks ja env (ja.Decode env (Verify.tokenStr env al r))).1
        (Verify.checks ja env (ja.Decode env (Verify.tokenStr env al r))).2)).ctx.Value
      jwtErrorKey =
        Any.ofError (Verify.checks ja env (ja.Decode env (Verify.tokenStr env al r))).2 ∧
    ((r.WithContext (ja.SetContext r.ctx
        (Verify.checks ja env (ja.Decode env (Verify.tokenStr env al r))).1
        (Verify.checks ja env (ja.Decode env (Verify.tokenStr env al r))).2)).query =
        r.query ∧
      (r.WithContext (ja.SetContext r.ctx
        (Verify.checks ja env (ja.Decode env (Verify.tokenStr env al r))).1
        (Verify.checks ja env (ja.Decode env (Verify.tokenStr env al r))).2)).header =
        r.header ∧
      (r.WithContext (ja.SetContext r.ctx
        (Verify.checks ja env (ja.Decode env (Verify.tokenStr env al r))).1
        (Verify.checks ja env (ja.Decode env (Verify.tokenStr env al r))).2)).cookies =
        r.cookies) ∧
    (∀ w : ResponseWriter, ja.Verify env al idleHandler w r = w) ∧
    (∀ w : ResponseWriter,
      (ja.Verify env al okHandler w r).rendered = w.rendered ++ [(200, str "ok")]) := by
  refine ⟨fun next w => Verify_eq ja env al next w r, rfl, ?_, ?_, ⟨rfl, rfl, rfl⟩, ?_, ?_⟩
  · simp [Request.WithContext, JwtAuth.SetContext, Context.WithValue, Context.Value,
      jwtErrorKey_ne_jwtTokenKey]
  · simp [Request.WithContext, JwtAuth.SetContext, Context.WithValue, Context.Value]
  · intro w
    rw [Verify_eq]
    rfl
  · intro w
    rw [Verify_eq]
    rfl

/-- C12. For every request context that carries a non-nil error, `Authenticator` and
`allowUserCreationFromToken` both render 401 with the message "Token not found. You
Are not allowed to proceed without token.", whatever the token in the context and
whatever the downstream handler, which is not called. -/
theorem C12_error_in_context_gives_401 (next : Handler) (w : ResponseWriter)
    (r : Request) (e : GoError) (he : r.ctx.Value jwtErrorKey = .error e) :
    Authenticator next w r =
      renderJSON w 401
        (str "Token not found. You Are not allowed to proceed without token.") ∧
    allowUserCreationFromToken next w r =
      renderJSON w 401
        (str "Token not found. You Are not allowed to proceed without token.") := by
  rw [Authenticator_eq_claimGate, allowUserCreationFromToken_eq_claimGate]
  exact ⟨claimGate_of_error _ _ next w r e he, claimGate_of_error _ _ next w r e he⟩

/-- Witness of C12: a good token next to `ErrExpired`. -/
theorem C12_error_in_context_gives_401_witness :
    Authenticator okHandler emptyWriter (outcomeRequest (some goodToken) (some .ErrExpired)) =
      renderJSON emptyWriter 401
        (str "Token not found. You Are not allowed to proceed without token.") ∧
    allowUserCreationFromToken okHandler emptyWriter
        (outcomeRequest (some goodToken) (some .ErrExpired)) =
      renderJSON emptyWriter 401
        (str "Token not found. You Are not allowed to proceed without token.") :=
  C12_error_in_context_gives_401 okHandler emptyWriter
    (outcomeRequest (some goodToken) (some .ErrExpired)) .ErrExpired (by decide)

/-- C13. For every request context without an error whose token is missing (also
when the context holds no outcome at all), nil, or has `Valid` false,
`Authenticator` renders 401 with the message "token is not valid or does not exist",
which is not the message of the error case, whatever the downstream handler. -/
theorem C13_unusable_token_gives_401 (next : Handler) (w : ResponseWriter) (r : Request)
    (hne : ctxNoError r.ctx) (hu : ctxTokenUnusable r.ctx) :
    Authenticator next w r =
      renderJSON w 401 (str "token is not valid or does not exist") ∧
    renderJSON w 401 (str "token is not valid or does not exist") ≠
      renderJSON w 401
        (str "Token not found. You Are not allowed to proceed without token.") := by
  rw [Authenticator_eq_claimGate]
  refine ⟨claimGate_of_unusable _ _ next w r hne hu, ?_⟩
  intro h
  have h2 := congrArg (fun x => x.rendered) h
  simp only [renderJSON, List.append_cancel_left_eq, List.cons.injEq, Prod.mk.injEq,
    and_true, true_and] at h2
  exact absurd h2 (by decide)

/-- Witness of C13: a request whose context holds no outcome. -/
theorem C13_unusable_token_gives_401_witness :
    Authenticator okHandler emptyWriter emptyRequest =
      renderJSON emptyWriter 401 (str "token is not valid or does not exist") :=
  (C13_unusable_token_gives_401 okHandler emptyWriter emptyRequest
    (ctxNoError_of_nil _ (by decide))
    (Or.inl (fun t h => by
      have h2 : Any.nil = Any.token t := h
      cases h2))).1

/-- C14. For every request context without an error that holds a valid token,
`Authenticator` calls the next handler, on the request as it is, if and only if the
claims hold `type` with the string value "userauth"; with `type` absent it renders
401 "Token is not valid. Type is undifined", and with any other value of `type`, a
non-string one included, it renders 401 "Token is not an user auth one", in both
cases whatever the next handler. -/
theorem C14_type_claim_decides (w : ResponseWriter) (r : Request) (t : Token)
    (hne : ctxNoError r.ctx) (ht : r.ctx.Value jwtTokenKey = .token (some t))
    (hv : t.Valid = true) :
    ((∀ next : Handler, Authenticator next w r = next w r) ↔
      t.Claims.get (str "type") = some (.string (str "userauth"))) ∧
    (t.Claims.get (str "type") = none →
      ∀ next : Handler, Authenticator next w r =
        renderJSON w 401 (str "Token is not valid. Type is undifined")) ∧
    (∀ v, t.Claims.get (str "type") = some v → v ≠ .string (str "userauth") →
      ∀ next : Handler, Authenticator next w r =
        renderJSON w 401 (str "Token is not an user auth one")) := by
  have key : ∀ next : Handler, Authenticator next w r =
      match t.Claims.get (str "type") with
      | none => renderJSON w 401 (str "Token is not valid. Type is undifined")
      | some v =>
        if v = .string (str "userauth") then next w r
        else renderJSON w 401 (str "Token is not an user auth one") := by
    intro next
    rw [Authenticator_eq_claimGate]
    exact claimGate_of_valid _ _ next w r t hne ht hv
  refine ⟨⟨?_, ?_⟩, ?_, ?_⟩
  · intro hall
    have h := hall idleHandler
    rw [key idleHandler] at h
    cases hc : t.Claims.get (str "type") with
    | none =>
      rw [hc] at h
      exact absurd h (renderJSON_ne_self w 401 _)
    | some v =>
      rw [hc] at h
      by_cases hvv : v = .string (str "userauth")
      · rw [hvv]
      · simp only [hvv, if_false] at h
        exact absurd h (renderJSON_ne_self w 401 _)
  · intro hc next
    rw [key next, hc]
    simp
  · intro hc next
    rw [key next, hc]
  · intro v hc hvv next
    rw [key next, hc]
    simp [hvv]

/-- Witness of C14: a valid user token passes; an invitation token does not. -/
theorem C14_type_claim_decides_witness :
    Authenticator okHandler emptyWriter (outcomeRequest (some goodToken) none) =
      okHandler emptyWriter (outcomeRequest (some goodToken) none) ∧
    Authenticator okHandler emptyWriter (outcomeRequest (some inviteToken) none) =
      renderJSON emptyWriter 401 (str "Token is not an user auth one") :=
  ⟨(C14_type_claim_decides emptyWriter (outcomeRequest (some goodToken) none) goodToken
      (ctxNoError_of_nil _ (by decide)) (by decide) (by decide)).1.mpr (by decide)
      okHandler,
   (C14_type_claim_decides emptyWriter (outcomeRequest (some inviteToken) none)
      inviteToken (ctxNoError_of_nil _ (by decide)) (by decide) (by decide)).2.2
      (.string (str "invitation")) (by decide) (by decide) okHandler⟩

/-- C15. The two gates are the same gate with another expected literal and rejection
message. On a context without error that holds a valid token: `type` = "invitation"
is rejected with 401 by `Authenticator` and forwarded by
`allowUserCreationFromToken`, and `type` = "userauth" the other way round. On every
other kind of context (an error present, the token absent or invalid, `type`
absent) the two gates render the same 401 response. -/
theorem C15_gates_differ_in_literal (next : Handler) (w : ResponseWriter) (r : Request) :
    (Authenticator next w r =
        claimGate (str "userauth") (str "Token is not an user auth one") next w r ∧
      allowUserCreationFromToken next w r =
        claimGate (str "invitation") (str "Token is not an invitation one") next w r) ∧
    (∀ t : Token, ctxNoError r.ctx → r.ctx.Value jwtTokenKey = .token (some t) →
      t.Valid = true →
      (t.Claims.get (str "type") = some (.string (str "invitation")) →
        Authenticator next w r =
          renderJSON w 401 (str "Token is not an user auth one") ∧
        allowUserCreationFromToken next w r = next w r) ∧
      (t.Claims.get (str "type") = some (.string (str "userauth")) →
        Authenticator next w r = next w r ∧
        allowUserCreationFromToken next w r =
          renderJSON w 401 (str "Token is not an invitation one")) ∧
      (t.Claims.get (str "type") = none →
        Authenticator next w r = allowUserCreationFromToken next w r ∧
        Authenticator next w r =
          renderJSON w 401 (str "Token is not valid. Type is undifined"))) ∧
    ((∃ e, r.ctx.Value jwtErrorKey = .error e) →
      Authenticator next w r = allowUserCreationFromToken next w r ∧
      Authenticator next w r =
        renderJSON w 401
          (str "Token not found. You Are not allowed to proceed without token.")) ∧
    (ctxNoError r.ctx → ctxTokenUnusable r.ctx →
      Authenticator next w r = allowUserCreationFromToken next w r ∧
      Authenticator next w r =
        renderJSON w 401 (str "token is not valid or does not exist")) := by
  refine ⟨⟨Authenticator_eq_claimGate next w r,
    allowUserCreationFromToken_eq_claimGate next w r⟩, ?_, ?_, ?_⟩
  · intro t hne ht hv
    have ka := claimGate_of_valid (str "userauth") (str "Token is not an user auth one")
      next w r t hne ht hv
    have kb := claimGate_of_valid (str "invitation")
      (str "Token is not an invitation one") next w r t hne ht hv
    rw [← Authenticator_eq_claimGate] at ka
    rw [← allowUserCreationFromToken_eq_claimGate] at kb
    refine ⟨?_, ?_, ?_⟩
    · intro hc
      rw [ka, kb, hc]
      exact ⟨if_neg (by decide), if_pos rfl⟩
    · intro hc
      rw [ka, kb, hc]
      exact ⟨if_pos rfl, if_neg (by decide)⟩
    · intro hc
      rw [ka, kb, hc]
      exact ⟨rfl, rfl⟩
  · rintro ⟨e, he⟩
    rw [Authenticator_eq_claimGate, allowUserCreationFromToken_eq_claimGate,
      claimGate_of_error _ _ next w r e he, claimGate_of_error _ _ next w r e he]
    exact ⟨rfl, rfl⟩
  · intro hne hu
    rw [Authenticator_eq_claimGate, allowUserCreationFromToken_eq_claimGate,
      claimGate_of_unusable _ _ next w r hne hu, claimGate_of_unusable _ _ next w r hne hu]
    exact ⟨rfl, rfl⟩

/-- Witness of C15: an invitation token at both gates. -/
theorem C15_gates_differ_in_literal_witness :
    Authenticator okHandler emptyWriter (outcomeRequest (some inviteToken) none) =
      renderJSON emptyWriter 401 (str "Token is not an user auth one") ∧
    allowUserCreationFromToken okHandler emptyWriter
        (outcomeRequest (some inviteToken) none) =
      okHandler emptyWriter (outcomeRequest (some inviteToken) none) :=
  ((C15_gates_differ_in_literal okHandler emptyWriter
      (outcomeRequest (some inviteToken) none)).2.1 inviteToken
    (ctxNoError_of_nil _ (by decide)) (by decide) (by decide)).1 (by decide)

/-- C16. The key `keyFunc` returns is the verify key whenever the verify key is
present and non-empty, and the signing key otherwise (verify key nil or of length
zero); it returns no error, does not depend on the token, and is the key function
`Decode` passes to the parser. -/
theorem C16_key_resolution (ja : JwtAuth) :
    (∀ t, ja.keyFunc t = (resolveKey ja.verifyKey ja.signKey, none)) ∧
    (∀ b, ja.verifyKey = some b → b ≠ [] → ∀ t, (ja.keyFunc t).1 = some b) ∧
    ((ja.verifyKey = none ∨ ja.verifyKey = some []) →
      ∀ t, (ja.keyFunc t).1 = ja.signKey) ∧
    (∀ t t', ja.keyFunc t = ja.keyFunc t') ∧
    (∀ (env : Env) (s : GoString), ja.Decode env s = env.Parse ja.parser s ja.keyFunc) := by
  have h1 : ∀ t, ja.keyFunc t = (resolveKey ja.verifyKey ja.signKey, none) := by
    intro t
    unfold JwtAuth.keyFunc resolveKey
    rcases hk : ja.verifyKey with _ | (_ | ⟨b, bs⟩) <;> simp [Bytes.len]
  refine ⟨h1, ?_, ?_, ?_, ?_⟩
  · intro b hb hne t
    rw [h1, hb]
    cases b with
    | nil => exact absurd rfl hne
    | cons x xs => rfl
  · intro h t
    rw [h1]
    rcases h with h | h <;> rw [h] <;> rfl
  · intro t t'
    rw [h1, h1]
  · intro env s
    unfold JwtAuth.Decode
    cases ja.parser <;> rfl

/-- Witness of C16: with a verify key it is used, without one the signing key is. -/
theorem C16_key_resolution_witness :
    (JwtAuth.keyFunc { hs256 with verifyKey := some [112, 117, 98] } goodToken).1 =
      some [112, 117, 98] ∧
    (hs256.keyFunc goodToken).1 = hs256.signKey :=
  ⟨(C16_key_resolution { hs256 with verifyKey := some [112, 117, 98] }).2.1
      [112, 117, 98] rfl (by decide) goodToken,
   (C16_key_resolution hs256).2.2.1 (Or.inl rfl) goodToken⟩

/-- C19 (code defect). When the body binds and the database answers, `newUser`
renders 201 with the user even though `Save` returned an application error: after
`Save` the handler tests `err`, the error of `Bind`, which is nil there, and not
`apperr`. -/
theorem C19_newUser_ignores_save_error (env : ApiEnv) (w : ResponseWriter) (r : Request)
    (apperr : AppError)
    (hbind : (env.Bind r).2 = none) (hping : env.Ping = none)
    (hsave : (UserStoreImpl.Save env.model env.db (env.Bind r).1).2 = some apperr) :
    (UserStoreImpl.Save env.model env.db (env.Bind r).1).2 ≠ none ∧
    newUser env w r =
      some (renderJSON w 201
        (env.jsonUser (UserStoreImpl.Save env.model env.db (env.Bind r).1).1)) := by
  refine ⟨by rw [hsave]; exact Option.some_ne_none _, ?_⟩
  unfold newUser
  rcases hb : env.Bind r with ⟨user, err⟩
  rw [hb] at hbind
  simp only at hbind
  subst hbind
  simp [hping]

/-- Witness of C19: a user without email fails validation in `Save` with status 500,
and the response is 201. -/
theorem C19_newUser_ignores_save_error_witness :
    (UserStoreImpl.Save demoApiEnv.model demoApiEnv.db (demoApiEnv.Bind emptyRequest).1).2 ≠
      none ∧
    newUser demoApiEnv emptyWriter emptyRequest =
      some (renderJSON emptyWriter 201
        (demoApiEnv.jsonUser
          (UserStoreImpl.Save demoApiEnv.model demoApiEnv.db
            (demoApiEnv.Bind emptyRequest).1).1)) :=
  C19_newUser_ignores_save_error demoApiEnv emptyWriter emptyRequest
    { Where := str "userStoreImpl.Save.user.PreSave",
      ID := str "model.user.is_valid.Email.app_error",
      DetailedError := str "", StatusCode := 500 }
    (by decide) (by decide) (by decide)

/-- C20 (code defect). For every user with a valid `Username` and an empty `Email`,
`IsValid(true)`, the update case, returns the Email error just as `IsValid(false)`
does: the check `!IsValidEmail(user.Email)` is not under the `!isUpdate` guard, and
the empty string is no mail address. -/
theorem C20_update_rejects_empty_email (env : ModelEnv) (user : User)
    (hname : IsValidUsername user.Username = true) (hemail : user.Email = []) :
    user.IsValid env true =
      some (env.NewLocAppError (str "user.IsValid")
        (str "model.user.is_valid.Email.app_error") (str "")) ∧
    user.IsValid env false =
      some (env.NewLocAppError (str "user.IsValid")
        (str "model.user.is_valid.Email.app_error") (str "")) := by
  constructor
  · simp [User.IsValid, hname, hemail, IsValidEmail, ParseAddress]
  · simp [User.IsValid, hemail]

/-- Witness of C20: the user `bob`, who has no email and empty names. -/
theorem C20_update_rejects_empty_email_witness :
    RuneCountInString bob.NickName ≤ 64 ∧ RuneCountInString bob.FirstName ≤ 64 ∧
    RuneCountInString bob.LastName ≤ 64 ∧
    bob.IsValid demoModelEnv true =
      some (demoModelEnv.NewLocAppError (str "user.IsValid")
        (str "model.user.is_valid.Email.app_error") (str "")) ∧
    bob.IsValid demoModelEnv false =
      some (demoModelEnv.NewLocAppError (str "user.IsValid")
        (str "model.user.is_valid.Email.app_error") (str "")) :=
  ⟨by decide, by decide, by decide,
    C20_update_rejects_empty_email demoModelEnv bob (by decide) rfl⟩

/-! ## The claims, concluded -/

/-- C21. `IsValidUsername(s)` returns true if and only if `s` has between 1 and 64
bytes, every byte of `s` is a lowercase ASCII letter, a digit, `.`, `-` or `_`, and
`s` is none of the protected names "all", "channel", "popcubebot", "here". -/
theorem C21_IsValidUsername_iff (s : GoString) :
    IsValidUsername s = true ↔
      (1 ≤ s.length ∧ s.length ≤ 64) ∧
      (∀ c ∈ s, (97 ≤ c ∧ c ≤ 122) ∨ (48 ≤ c ∧ c ≤ 57) ∨ c = 46 ∨ c = 45 ∨ c = 95) ∧
      s ≠ str "all" ∧ s ≠ str "channel" ∧ s ≠ str "popcubebot" ∧ s ≠ str "here" := by
  have hclass : ∀ c : Nat, validUsernameChar c = true ↔
      ((97 ≤ c ∧ c ≤ 122) ∨ (48 ≤ c ∧ c ≤ 57) ∨ c = 46 ∨ c = 45 ∨ c = 95) := by
    intro c
    simp [validUsernameChar, or_assoc]
  have hall : (s.all validUsernameChar = true) ↔
      ∀ c ∈ s, (97 ≤ c ∧ c ≤ 122) ∨ (48 ≤ c ∧ c ≤ 57) ∨ c = 46 ∨ c = 45 ∨ c = 95 := by
    rw [List.all_eq_true]
    exact forall_congr' (fun c => imp_congr Iff.rfl (hclass c))
  have hne : s ≠ [] ↔ 1 ≤ s.length := by
    rw [Nat.one_le_iff_ne_zero, ne_eq, ne_eq, List.length_eq_zero]
  unfold IsValidUsername validUsernameChars.MatchString restrictedUsernames
  by_cases h0 : s.length = 0
  · have : ¬ 1 ≤ s.length := by omega
    simp [h0, this]
  by_cases h64 : s.length > 64
  · have : ¬ s.length ≤ 64 := by omega
    simp [h64, this]
  have h1 : 1 ≤ s.length := by omega
  have h2 : s.length ≤ 64 := by omega
  have h3 : s ≠ [] := hne.mpr h1
  by_cases hc : s.all validUsernameChar = true
  · simp [h0, h64, h1, h2, h3, hc]
    intro _ _ _ _
    exact hall.mp hc
  · have hc2 : ¬ ∀ c ∈ s, (97 ≤ c ∧ c ≤ 122) ∨ (48 ≤ c ∧ c ≤ 57) ∨ c = 46 ∨ c = 45 ∨ c = 95 :=
      fun h => hc (hall.mpr h)
    simp only [h0, h64, or_self, if_false, h3, hc, hc2, false_and, and_false, iff_false]
    simp

/-! ## Lemmas on the regular expressions -/

theorem mem_lowerLetters (c : Nat) : c ∈ lowerLetters ↔ (97 ≤ c ∧ c ≤ 122) := by
  simp only [lowerLetters, List.mem_map, List.mem_range]
  constructor
  · rintro ⟨i, hi, rfl⟩
    omega
  · intro h
    exact ⟨c - 97, by omega, by omega⟩

theorem mem_decimalDigits (c : Nat) : c ∈ decimalDigits ↔ (48 ≤ c ∧ c ≤ 57) := by
  simp only [decimalDigits, List.mem_map, List.mem_range]
  constructor
  · rintro ⟨i, hi, rfl⟩
    omega
  · intro h
    exact ⟨c - 48, by omega, by omega⟩

theorem mem_classAlnum (c : Nat) : c ∈ classAlnum ↔ isLowerAlnum c := by
  simp only [classAlnum, List.mem_append, mem_lowerLetters, mem_decimalDigits, isLowerAlnum]

theorem mem_classAlnumDashUnderscore (c : Nat) :
    c ∈ classAlnumDashUnderscore ↔ (isLowerAlnum c ∨ c = 45 ∨ c = 95) := by
  simp only [classAlnumDashUnderscore, List.mem_append, mem_lowerLetters, mem_decimalDigits,
    isLowerAlnum, List.mem_cons, List.mem_singleton, List.not_mem_nil, or_false]
  tauto

theorem mem_classAlnumDash (c : Nat) :
    c ∈ classAlnumDash ↔ (isLowerAlnum c ∨ c = 45) := by
  simp only [classAlnumDash, List.mem_append, mem_lowerLetters, mem_decimalDigits,
    isLowerAlnum, List.mem_singleton]
  tauto

theorem charClass_rmatch (l : List Nat) (x : GoString) :
    (charClass l).rmatch x = true ↔ ∃ c ∈ l, x = [c] := by
  induction l with
  | nil =>
    have h0 : charClass [] = 0 := rfl
    simp [h0, RegularExpression.zero_rmatch]
  | cons a l ih =>
    have h1 : charClass (a :: l) = RegularExpression.char a + charClass l := rfl
    rw [h1, RegularExpression.add_rmatch_iff, RegularExpression.char_rmatch_iff, ih]
    constructor
    · rintro (h | ⟨c, hc, h⟩)
      · exact ⟨a, List.mem_cons_self _ _, h⟩
      · exact ⟨c, List.mem_cons_of_mem _ hc, h⟩
    · rintro ⟨c, hc, h⟩
      rcases List.mem_cons.mp hc with rfl | hc
      · exact Or.inl h
      · exact Or.inr ⟨c, hc, h⟩

theorem flatten_map_singleton (x : GoString) : (x.map (fun c => [c])).flatten = x := by
  induction x with
  | nil => rfl
  | cons a as ih => simp [List.flatten, ih]

theorem star_charClass_rmatch (l : List Nat) (x : GoString) :
    (charClass l).star.rmatch x = true ↔ ∀ c ∈ x, c ∈ l := by
  rw [RegularExpression.star_rmatch_iff]
  constructor
  · rintro ⟨S, rfl, hS⟩ c hc
    obtain ⟨t, ht, hct⟩ := List.mem_flatten.mp hc
    obtain ⟨d, hd, rfl⟩ := (charClass_rmatch l t).mp (hS t ht).2
    rw [List.mem_singleton] at hct
    rw [hct]
    exact hd
  · intro h
    refine ⟨x.map (fun c => [c]), (flatten_map_singleton x).symm, ?_⟩
    intro t ht
    obtain ⟨c, hc, rfl⟩ := List.mem_map.mp ht
    exact ⟨by simp, (charClass_rmatch l [c]).mpr ⟨c, h c hc, rfl⟩⟩

theorem oneOrMore_charClass_rmatch (l : List Nat) (x : GoString) :
    (oneOrMore (charClass l)).rmatch x = true ↔ x ≠ [] ∧ ∀ c ∈ x, c ∈ l := by
  unfold oneOrMore
  rw [RegularExpression.mul_rmatch_iff]
  constructor
  · rintro ⟨t, u, rfl, ht, hu⟩
    obtain ⟨c, hc, rfl⟩ := (charClass_rmatch l t).mp ht
    refine ⟨by simp, ?_⟩
    intro d hd
    rcases List.mem_append.mp hd with hd | hd
    · rw [List.mem_singleton] at hd
      rw [hd]
      exact hc
    · exact (star_charClass_rmatch l u).mp hu d hd
  · rintro ⟨hne, h⟩
    cases x with
    | nil => exact absurd rfl hne
    | cons a as =>
      refine ⟨[a], as, rfl, (charClass_rmatch l [a]).mpr ⟨a, h a (List.mem_cons_self _ _), rfl⟩,
        (star_charClass_rmatch l as).mpr (fun c hc => h c (List.mem_cons_of_mem _ hc))⟩

theorem doubleUnderscore_rmatch (x : GoString) :
    (zeroOrOne (RegularExpression.char 95 * RegularExpression.char 95)).rmatch x = true ↔
      (x = [95, 95] ∨ x = []) := by
  unfold zeroOrOne
  rw [RegularExpression.add_rmatch_iff, RegularExpression.one_rmatch_iff,
    RegularExpression.mul_rmatch_iff]
  constructor
  · rintro (⟨t, u, rfl, ht, hu⟩ | h)
    · rw [RegularExpression.char_rmatch_iff] at ht hu
      left
      rw [ht, hu]
      rfl
    · exact Or.inr h
  · rintro (h | h)
    · left
      exact ⟨[95], [95], h, (RegularExpression.char_rmatch_iff _ _).mpr rfl,
        (RegularExpression.char_rmatch_iff _ _).mpr rfl⟩
    · exact Or.inr h

/-- The strings of `A+(M+|(__)?)A+` for two classes `A` and `M`. -/
theorem sandwich_rmatch (A M : List Nat) (s : GoString) :
    (oneOrMore (charClass A) *
      (oneOrMore (charClass M) +
        zeroOrOne (RegularExpression.char 95 * RegularExpression.char 95)) *
      oneOrMore (charClass A)).rmatch s = true ↔
    ∃ u m v, s = u ++ m ++ v ∧ (u ≠ [] ∧ ∀ c ∈ u, c ∈ A) ∧ (v ≠ [] ∧ ∀ c ∈ v, c ∈ A) ∧
      ((m ≠ [] ∧ ∀ c ∈ m, c ∈ M) ∨ m = [95, 95] ∨ m = []) := by
  rw [RegularExpression.mul_rmatch_iff]
  constructor
  · rintro ⟨t, v, rfl, ht, hv⟩
    rw [RegularExpression.mul_rmatch_iff] at ht
    obtain ⟨u, m, rfl, hu, hm⟩ := ht
    rw [RegularExpression.add_rmatch_iff, oneOrMore_charClass_rmatch,
      doubleUnderscore_rmatch] at hm
    exact ⟨u, m, v, rfl, (oneOrMore_charClass_rmatch A u).mp hu,
      (oneOrMore_charClass_rmatch A v).mp hv, hm⟩
  · rintro ⟨u, m, v, rfl, hu, hv, hm⟩
    refine ⟨u ++ m, v, rfl, ?_, (oneOrMore_charClass_rmatch A v).mpr hv⟩
    rw [RegularExpression.mul_rmatch_iff]
    refine ⟨u, m, rfl, (oneOrMore_charClass_rmatch A u).mpr hu, ?_⟩
    rw [RegularExpression.add_rmatch_iff, oneOrMore_charClass_rmatch, doubleUnderscore_rmatch]
    exact hm

theorem sandwich_iff_ends (A M : List Nat) (hAM : ∀ c ∈ A, c ∈ M) (h95 : 95 ∈ M)
    (s : GoString) :
    (∃ u m v, s = u ++ m ++ v ∧ (u ≠ [] ∧ ∀ c ∈ u, c ∈ A) ∧ (v ≠ [] ∧ ∀ c ∈ v, c ∈ A) ∧
      ((m ≠ [] ∧ ∀ c ∈ m, c ∈ M) ∨ m = [95, 95] ∨ m = [])) ↔
    (2 ≤ s.length ∧ (∀ c ∈ s, c ∈ M) ∧ (∃ x, s.head? = some x ∧ x ∈ A) ∧
      (∃ y, s.getLast? = some y ∧ y ∈ A)) := by
  constructor
  · rintro ⟨u, m, v, rfl, ⟨hu0, hu⟩, ⟨hv0, hv⟩, hm⟩
    obtain ⟨a, u', rfl⟩ := List.exists_cons_of_ne_nil hu0
    obtain ⟨y, hy⟩ : ∃ y, v.getLast? = some y := by
      cases hl : v.getLast? with
      | none => exact absurd (List.getLast?_eq_none_iff.mp hl) hv0
      | some y => exact ⟨y, rfl⟩
    obtain ⟨v', rfl⟩ := List.getLast?_eq_some_iff.mp hy
    have hmM : ∀ c ∈ m, c ∈ M := by
      rcases hm with ⟨_, h⟩ | rfl | rfl
      · exact h
      · intro c hc
        simp only [List.mem_cons, List.mem_singleton, List.not_mem_nil, or_false, or_self] at hc
        rw [hc]
        exact h95
      · intro c hc
        cases hc
    refine ⟨?_, ?_, ⟨a, rfl, hu a (List.mem_cons_self _ _)⟩, ⟨y, ?_, hv y (by simp)⟩⟩
    · simp only [List.length_append, List.length_cons, List.length_nil]
      omega
    · intro c hc
      rcases List.mem_append.mp hc with hc | hc
      · rcases List.mem_append.mp hc with hc | hc
        · exact hAM c (hu c hc)
        · exact hmM c hc
      · exact hAM c (hv c hc)
    · exact List.getLast?_eq_some_iff.mpr ⟨a :: u' ++ m ++ v', by simp⟩
  · rintro ⟨hlen, hall, ⟨x, hx, hxA⟩, ⟨y, hy, hyA⟩⟩
    obtain ⟨ys, rfl⟩ := List.getLast?_eq_some_iff.mp hy
    cases ys with
    | nil => simp at hlen
    | cons x' mid =>
      have hxx : x' = x := by simpa using hx
      subst hxx
      refine ⟨[x'], mid, [y], by simp, ⟨by simp, ?_⟩, ⟨by simp, ?_⟩, ?_⟩
      · intro c hc
        rw [List.mem_singleton] at hc
        rw [hc]
        exact hxA
      · intro c hc
        rw [List.mem_singleton] at hc
        rw [hc]
        exact hyA
      · by_cases hmid : mid = []
        · exact Or.inr (Or.inr hmid)
        · refine Or.inl ⟨hmid, fun c hc => hall c ?_⟩
          simp [hc]

theorem RuneCountInString.go_ascii (s : GoString) (h : ∀ c ∈ s, c < 128) :
    RuneCountInString.go 0 s = s.length := by
  induction s with
  | nil => rfl
  | cons c rest ih =>
    have hc : c < 128 := h c (List.mem_cons_self _ _)
    have hw : runeWidth c rest = 1 := by
      unfold runeWidth
      rw [if_pos hc]
    rw [RuneCountInString.go, hw, Nat.sub_self, ih (fun d hd => h d (List.mem_cons_of_mem _ hd)),
      List.length_cons, Nat.add_comm]

theorem IsValidOrganisationIdentifier_iff (s : GoString) :
    IsValidOrganisationIdentifier s = true ↔
      (2 ≤ s.length ∧ (∀ c ∈ s, isLowerAlnum c ∨ c = 45 ∨ c = 95) ∧ endsLowerAlnum s) := by
  unfold IsValidOrganisationIdentifier IsValidAlphaNum MatchString validAlphaNumUnderscore
  rw [if_pos rfl, sandwich_rmatch,
    sandwich_iff_ends classAlnum classAlnumDashUnderscore
      (fun c hc => (mem_classAlnumDashUnderscore c).mpr (Or.inl ((mem_classAlnum c).mp hc)))
      ((mem_classAlnumDashUnderscore 95).mpr (Or.inr (Or.inr rfl)))]
  simp only [mem_classAlnumDashUnderscore, mem_classAlnum, endsLowerAlnum]

theorem lowerAlnumDashUnderscore_lt (c : Nat) (h : isLowerAlnum c ∨ c = 45 ∨ c = 95) :
    c < 128 := by
  unfold isLowerAlnum at h
  omega

theorem not_isLowerAlnum_underscore : ¬ isLowerAlnum 95 := by
  unfold isLowerAlnum
  omega

/-- C24. `IsValidOrganisationIdentifier(s)` returns true if and only if `s` has at
least two bytes, every byte is a lowercase ASCII letter, a digit, `-` or `_`, and the
first and the last byte are a lowercase letter or a digit. `Organisation.IsValid`
returns no error exactly when the name is such an identifier of at most 64 bytes and
the description has at most 1024 runes; a name of one byte is rejected. -/
theorem C24_organisation_identifier (env : ModelEnv) (s : GoString) (o : Organisation) :
    (IsValidOrganisationIdentifier s = true ↔
      (2 ≤ s.length ∧ (∀ c ∈ s, isLowerAlnum c ∨ c = 45 ∨ c = 95) ∧ endsLowerAlnum s)) ∧
    (o.IsValid env = none ↔
      ((2 ≤ o.OrganisationName.length ∧
          (∀ c ∈ o.OrganisationName, isLowerAlnum c ∨ c = 45 ∨ c = 95) ∧
          endsLowerAlnum o.OrganisationName) ∧
        o.OrganisationName.length ≤ 64 ∧ RuneCountInString o.Description ≤ 1024)) ∧
    (o.OrganisationName.length = 1 → o.IsValid env ≠ none) := by
  have hid := IsValidOrganisationIdentifier_iff o.OrganisationName
  have hmain : o.IsValid env = none ↔
      ((2 ≤ o.OrganisationName.length ∧
          (∀ c ∈ o.OrganisationName, isLowerAlnum c ∨ c = 45 ∨ c = 95) ∧
          endsLowerAlnum o.OrganisationName) ∧
        o.OrganisationName.length ≤ 64 ∧ RuneCountInString o.Description ≤ 1024) := by
    unfold Organisation.IsValid
    by_cases hv : IsValidOrganisationIdentifier o.OrganisationName = true
    · have hc := hid.mp hv
      have hrc : RuneCountInString o.OrganisationName = o.OrganisationName.length :=
        RuneCountInString.go_ascii _ (fun c hcm => lowerAlnumDashUnderscore_lt c (hc.2.1 c hcm))
      have h2 : ¬ o.OrganisationName.length = 0 := by omega
      rw [hrc]
      by_cases h64 : o.OrganisationName.length > 64
      · have : ¬ o.OrganisationName.length ≤ 64 := by omega
        simp [h64, this]
      · have h64b : o.OrganisationName.length ≤ 64 := by omega
        by_cases hd : RuneCountInString o.Description > 1024
        · have : ¬ RuneCountInString o.Description ≤ 1024 := by omega
          simp [h2, h64, hv, hd, this]
        · have hdb : RuneCountInString o.Description ≤ 1024 := by omega
          simp only [h2, h64, or_self, if_false, hv, Bool.not_true, Bool.false_eq_true, hd,
            true_iff]
          exact ⟨hc, h64b, hdb⟩
    · have hnc : ¬ (2 ≤ o.OrganisationName.length ∧
          (∀ c ∈ o.OrganisationName, isLowerAlnum c ∨ c = 45 ∨ c = 95) ∧
          endsLowerAlnum o.OrganisationName) := fun h => hv (hid.mpr h)
      have hvf : IsValidOrganisationIdentifier o.OrganisationName = false := by
        simpa using hv
      by_cases h0 : o.OrganisationName.length = 0 ∨
          RuneCountInString o.OrganisationName > 64
      · rw [if_pos h0]
        simp [hnc]
      · rw [if_neg h0, hvf]
        simp [hnc]
  refine ⟨IsValidOrganisationIdentifier_iff s, hmain, ?_⟩
  intro h1 hnone
  have := (hmain.mp hnone).1.1
  omega

/-- Witness of C24: the name "a" is rejected, the name "popcube_org-1" is accepted. -/
theorem C24_organisation_identifier_witness :
    (orgNamed (str "a") []).IsValid demoModelEnv ≠ none ∧
    (orgNamed (str "popcube_org-1") []).IsValid demoModelEnv = none :=
  ⟨(C24_organisation_identifier demoModelEnv (str "a") (orgNamed (str "a") [])).2.2
      (by decide),
   by decide⟩

/-- C25 (counterexample). With `allowUnderscores` false, the string "a__b", which
contains `_`, is accepted: both expressions carry the alternative `(__)?`. -/
theorem C25_double_underscore_accepted :
    95 ∈ str "a__b" ∧ IsValidAlphaNum (str "a__b") false = true := by
  decide

/-- C25 (amended). With `allowUnderscores` false, a string that contains `_` is
accepted if and only if it is one or more lowercase letters or digits, then exactly
"__", then one or more lowercase letters or digits; every other string that
contains `_` is rejected. -/
theorem C25_underscore_only_as_double (s : GoString) (h : 95 ∈ s) :
    IsValidAlphaNum s false = true ↔
      ∃ u v, s = u ++ str "__" ++ v ∧ (u ≠ [] ∧ ∀ c ∈ u, isLowerAlnum c) ∧
        (v ≠ [] ∧ ∀ c ∈ v, isLowerAlnum c) := by
  have hstr : str "__" = [95, 95] := by decide
  unfold IsValidAlphaNum MatchString validAlphaNum
  rw [if_neg (by decide), sandwich_rmatch, hstr]
  simp only [mem_classAlnum, mem_classAlnumDash]
  constructor
  · rintro ⟨u, m, v, rfl, hu, hv, hm⟩
    have hnu : 95 ∉ u := fun hm95 => not_isLowerAlnum_underscore (hu.2 95 hm95)
    have hnv : 95 ∉ v := fun hm95 => not_isLowerAlnum_underscore (hv.2 95 hm95)
    have hmm : 95 ∈ m := by
      rcases List.mem_append.mp h with h1 | h1
      · rcases List.mem_append.mp h1 with h2 | h2
        · exact absurd h2 hnu
        · exact h2
      · exact absurd h1 hnv
    rcases hm with ⟨_, hmC⟩ | rfl | rfl
    · rcases hmC 95 hmm with h3 | h3
      · exact absurd h3 not_isLowerAlnum_underscore
      · omega
    · exact ⟨u, v, rfl, hu, hv⟩
    · cases hmm
  · rintro ⟨u, v, rfl, hu, hv⟩
    exact ⟨u, [95, 95], v, rfl, hu, hv, Or.inr (Or.inl rfl)⟩

/-- Witness of C25 (amended): "a__b" is of the accepted form, "a_b" is rejected. -/
theorem C25_underscore_only_as_double_witness :
    (∃ u v, str "a__b" = u ++ str "__" ++ v ∧ (u ≠ [] ∧ ∀ c ∈ u, isLowerAlnum c) ∧
        (v ≠ [] ∧ ∀ c ∈ v, isLowerAlnum c)) ∧
    IsValidAlphaNum (str "a_b") false = false :=
  ⟨(C25_underscore_only_as_double (str "a__b") (by decide)).mp (by decide), by decide⟩

/-! ## Lemmas on the reading of `exp` -/

theorem foldl_digit_ge (ds : GoString) (acc : Nat) :
    acc ≤ ds.foldl (fun n c => n * 10 + (c - 48)) acc := by
  induction ds generalizing acc with
  | nil => exact Nat.le_refl _
  | cons c cs ih =>
    have h := ih (acc * 10 + (c - 48))
    simp only [List.foldl_cons]
    omega

theorem ParseUint.loop_digits (ds : GoString) (acc : Nat) (hacc : acc ≤ 2 ^ 64 - 1)
    (hd : ds.all isDigit = true) :
    ParseUint.loop ds acc =
      some (min (ds.foldl (fun n c => n * 10 + (c - 48)) acc) (2 ^ 64 - 1)) := by
  induction ds generalizing acc with
  | nil =>
    rw [List.foldl_nil, Nat.min_eq_left hacc]
    rfl
  | cons c cs ih =>
    simp only [List.all_cons, Bool.and_eq_true] at hd
    obtain ⟨hc, hcs⟩ := hd
    have hc2 : 48 ≤ c ∧ c ≤ 57 := by simpa [isDigit] using hc
    unfold ParseUint.loop
    rw [if_pos hc2]
    simp only [List.foldl_cons]
    by_cases hov : acc * 10 + (c - 48) > 2 ^ 64 - 1
    · rw [if_pos hov]
      have := foldl_digit_ge cs (acc * 10 + (c - 48))
      rw [Nat.min_eq_right (by omega)]
    · rw [if_neg hov]
      exact ih _ (by omega) hcs

theorem ParseUint.loop_nondigit (ds : GoString) (acc : Nat)
    (hd : ¬ ds.all isDigit = true)
    (hp : (ds.takeWhile isDigit).foldl (fun n c => n * 10 + (c - 48)) acc ≤ 2 ^ 64 - 1) :
    ParseUint.loop ds acc = none := by
  induction ds generalizing acc with
  | nil => simp at hd
  | cons c cs ih =>
    unfold ParseUint.loop
    by_cases hc : isDigit c = true
    · have hc2 : 48 ≤ c ∧ c ≤ 57 := by simpa [isDigit] using hc
      rw [if_pos hc2]
      simp only [List.takeWhile_cons, hc, if_true, List.foldl_cons] at hp
      have hge := foldl_digit_ge (cs.takeWhile isDigit) (acc * 10 + (c - 48))
      have hov : ¬ acc * 10 + (c - 48) > 2 ^ 64 - 1 := by omega
      simp only [hov, if_false]
      apply ih
      · intro hall
        apply hd
        simp [hc, hall]
      · exact hp
    · have hc2 : ¬ (48 ≤ c ∧ c ≤ 57) := by
        intro h
        apply hc
        simpa [isDigit] using h
      rw [if_neg hc2]

theorem Int64_cons (c : Nat) (cs : GoString) :
    Int64 (c :: cs) =
      match ParseUint (unsignedPart (c :: cs)) with
      | none => 0
      | some un =>
        if c ≠ 45 ∧ un ≥ 2 ^ 63 then 2 ^ 63 - 1
        else if c = 45 ∧ un > 2 ^ 63 then -2 ^ 63
        else if c = 45 then -(un : Int) else (un : Int) := by
  unfold Int64 unsignedPart
  by_cases h45 : c = 45
  · subst h45
    simp
  · by_cases h43 : c = 43
    · subst h43
      simp
    · simp [h45, h43]

theorem Int64_of_decimal (s : GoString) (n : Int) (h : decimalValue s = some n) :
    Int64 s = clampInt64 n := by
  cases s with
  | nil => simp [decimalValue] at h
  | cons c cs =>
    rw [Int64_cons]
    unfold decimalValue at h
    simp only [] at h
    have hu : unsignedPart (c :: cs) = if c = 43 ∨ c = 45 then cs else c :: cs := rfl
    rw [hu]
    generalize (if c = 43 ∨ c = 45 then cs else c :: cs) = body at h ⊢
    by_cases hb : body ≠ [] ∧ body.all isDigit = true
    · rw [if_pos hb] at h
      have hn : n = if c = 45 then -(digitsValue body : Int) else (digitsValue body : Int) :=
        (Option.some.inj h).symm
      have hp : ParseUint body = some (min (digitsValue body) (2 ^ 64 - 1)) := by
        unfold ParseUint
        rw [if_neg hb.1]
        exact ParseUint.loop_digits body 0 (by omega) hb.2
      rw [hp, hn]
      simp only []
      unfold clampInt64
      have e63 : (2 : Int) ^ 63 = 9223372036854775808 := by norm_num
      rw [e63]
      rcases Nat.le_total (digitsValue body) (2 ^ 64 - 1) with hle | hle
      · rw [Nat.min_eq_left hle]
        by_cases h45 : c = 45 <;> simp only [h45, if_true, if_false, ne_eq, not_true_eq_false,
          not_false_eq_true, true_and, false_and] <;> split_ifs <;> first | rfl | (clear h hn hu hp e63; omega)
      · rw [Nat.min_eq_right hle]
        by_cases h45 : c = 45 <;> simp only [h45, if_true, if_false, ne_eq, not_true_eq_false,
          not_false_eq_true, true_and, false_and] <;> split_ifs <;> first | rfl | (clear h hn hu hp e63; omega)
    · rw [if_neg hb] at h
      cases h

theorem Int64_of_nondecimal (s : GoString) (h : decimalValue s = none)
    (hp : digitsValue ((unsignedPart s).takeWhile isDigit) ≤ 2 ^ 64 - 1) :
    Int64 s = 0 := by
  cases s with
  | nil => rfl
  | cons c cs =>
    rw [Int64_cons]
    unfold decimalValue at h
    simp only [] at h
    have hu : unsignedPart (c :: cs) = if c = 43 ∨ c = 45 then cs else c :: cs := rfl
    rw [hu] at hp ⊢
    generalize (if c = 43 ∨ c = 45 then cs else c :: cs) = body at h hp ⊢
    by_cases hb : body ≠ [] ∧ body.all isDigit = true
    · rw [if_pos hb] at h
      cases h
    · have hpu : ParseUint body = none := by
        unfold ParseUint
        by_cases hnil : body = []
        · rw [if_pos hnil]
        · rw [if_neg hnil]
          exact ParseUint.loop_nondigit body 0 (fun hall => hb ⟨hnil, hall⟩) hp
      rw [hpu]

theorem tdiv_eq_truncate (q : ℚ) : Int.tdiv q.num q.den = truncate q := by
  unfold truncate
  by_cases h0 : 0 ≤ q
  · rw [if_pos h0, Rat.floor_def,
      Int.tdiv_eq_ediv (Rat.num_nonneg.mpr h0) (by exact_mod_cast Nat.zero_le _)]
  · rw [if_neg h0]
    have hneg : 0 ≤ -q := by linarith
    have h1 : ⌊-q⌋ = (-q.num) / (q.den : Int) := by
      rw [Rat.floor_def, Rat.neg_num, Rat.neg_den]
    have h2 : ⌈q⌉ = -⌊-q⌋ := by
      rw [Int.floor_neg, neg_neg]
    have h3 : 0 ≤ -q.num := by
      have := Rat.num_nonneg.mpr hneg
      rwa [Rat.neg_num] at this
    rw [h2, h1, ← Int.tdiv_eq_ediv h3 (by exact_mod_cast Nat.zero_le _), Int.neg_tdiv, neg_neg]

theorem IsExpired.exp_float64 (env : Env) (q : ℚ) (h : fitsInt64 (truncate q)) :
    IsExpired.exp env (.float64 (.finite q)) = truncate q := by
  unfold fitsInt64 at h
  simp only [IsExpired.exp, int64OfFloat64, tdiv_eq_truncate]
  rw [if_pos h]

theorem IsExpired_eq_true_iff (ja : JwtAuth) (env : Env) (t : Token) :
    ja.IsExpired env t = true ↔
      ∃ v, t.Claims.get (str "exp") = some v ∧ IsExpired.exp env v < EpochNow env := by
  unfold JwtAuth.IsExpired
  cases h : t.Claims.get (str "exp") with
  | none => simp
  | some v => simp

/-- C23 (counterexample). A `json.Number` that is out of the `int64` range does not
parse, yet it is not read as 0: "99999999999999999999" is read as the largest
`int64`, so `IsExpired` answers false at clock 1500000000, where the reading of the
specification (0, which is below the clock) answers true. -/
theorem C23_out_of_range_number_not_zero :
    hs256.IsExpired demoEnv (expToken (.jsonNumber (str "99999999999999999999"))) = false ∧
    IsExpired.spec demoEnv (expToken (.jsonNumber (str "99999999999999999999"))) ∧
    IsExpired.exp demoEnv (.jsonNumber (str "99999999999999999999")) = 2 ^ 63 - 1 := by
  refine ⟨by decide, ⟨.jsonNumber (str "99999999999999999999"), 0, by decide, by decide,
    by decide⟩, by decide⟩

/-- C23 (amended). `IsExpired` returns true if and only if the claims hold `exp` and
e < now, where e is: the integer itself for an `int64`; the value truncated toward
zero for a `float64` whose truncation fits an `int64`; for a `json.Number` whose
text is a decimal integer, that integer brought to the nearest `int64` (so the
integer itself when it fits); 0 for a `json.Number` whose text is not a decimal
integer and whose leading digits do not overflow; 0 for a string or a value of
another type. So one integer n that fits, held as `int64`, `float64` or
`json.Number`, is read as n; an `exp` read as now is not expired; a missing `exp`
never expires; a string or other `exp` is expired exactly when now > 0. -/
theorem C23_IsExpired_reading (env : Env) (ja : JwtAuth) (t : Token) :
    (ja.IsExpired env t = true ↔
      ∃ v, t.Claims.get (str "exp") = some v ∧ IsExpired.exp env v < EpochNow env) ∧
    (∀ n : Int, IsExpired.exp env (.int64 n) = n) ∧
    (∀ q : ℚ, fitsInt64 (truncate q) →
      IsExpired.exp env (.float64 (.finite q)) = truncate q) ∧
    (∀ s n, decimalValue s = some n →
      IsExpired.exp env (.jsonNumber s) = clampInt64 n) ∧
    (∀ s, decimalValue s = none →
      digitsValue ((unsignedPart s).takeWhile isDigit) ≤ 2 ^ 64 - 1 →
      IsExpired.exp env (.jsonNumber s) = 0) ∧
    (∀ s, IsExpired.exp env (.string s) = 0) ∧
    IsExpired.exp env .other = 0 ∧
    (∀ (n : Int) (s : GoString), fitsInt64 n → decimalValue s = some n →
      IsExpired.exp env (.int64 n) = n ∧
      IsExpired.exp env (.float64 (.finite (n : ℚ))) = n ∧
      IsExpired.exp env (.jsonNumber s) = n) ∧
    (∀ v, t.Claims.get (str "exp") = some v → IsExpired.exp env v = EpochNow env →
      ja.IsExpired env t = false) ∧
    (t.Claims.get (str "exp") = none → ja.IsExpired env t = false) ∧
    (∀ v, t.Claims.get (str "exp") = some v → (v = .other ∨ ∃ s, v = .string s) →
      (ja.IsExpired env t = true ↔ 0 < EpochNow env)) := by
  have hclamp : ∀ n : Int, fitsInt64 n → clampInt64 n = n := by
    intro n hn
    unfold fitsInt64 at hn
    unfold clampInt64
    have e63 : (2 : Int) ^ 63 = 9223372036854775808 := by norm_num
    rw [e63] at hn ⊢
    split_ifs <;> omega
  have htrunc : ∀ n : Int, truncate (n : ℚ) = n := by
    intro n
    unfold truncate
    split_ifs
    · exact Int.floor_intCast n
    · exact Int.ceil_intCast n
  refine ⟨IsExpired_eq_true_iff ja env t, fun n => rfl, IsExpired.exp_float64 env, ?_, ?_,
    fun s => rfl, rfl, ?_, ?_, ?_, ?_⟩
  · intro s n h
    exact Int64_of_decimal s n h
  · intro s h hp
    exact Int64_of_nondecimal s h hp
  · intro n s hn hs
    refine ⟨rfl, ?_, ?_⟩
    · rw [IsExpired.exp_float64 env (n : ℚ) (by rw [htrunc]; exact hn), htrunc]
    · show Int64 s = n
      rw [Int64_of_decimal s n hs, hclamp n hn]
  · intro v hv he
    rw [(IsExpired_eq_false_iff ja env t)]
    exact Or.inr ⟨v, hv, by rw [he]⟩
  · intro h
    rw [(IsExpired_eq_false_iff ja env t)]
    exact Or.inl h
  · intro v hv hkind
    rw [IsExpired_eq_true_iff, hv]
    have h0 : IsExpired.exp env v = 0 := by
      rcases hkind with rfl | ⟨s, rfl⟩ <;> rfl
    constructor
    · rintro ⟨w, hw, hlt⟩
      cases hw
      rw [h0] at hlt
      exact hlt
    · intro hpos
      exact ⟨v, rfl, by rw [h0]; exact hpos⟩

/-- Witness of C23 (amended): 1500000000 as `int64`, `float64` and `json.Number`. -/
theorem C23_IsExpired_reading_witness :
    IsExpired.exp demoEnv (.int64 1500000000) = 1500000000 ∧
    IsExpired.exp demoEnv (.float64 (.finite ((1500000000 : Int) : ℚ))) = 1500000000 ∧
    IsExpired.exp demoEnv (.jsonNumber (str "1500000000")) = 1500000000 :=
  (C23_IsExpired_reading demoEnv hs256 (expToken (.int64 1500000000))).2.2.2.2.2.2.2.1
    1500000000 (str "1500000000") (by decide) (by decide)

/-! ## Lemmas on ExpireIn -/

theorem int64OfFloat64_finite (env : Env) (q : ℚ) (h : fitsInt64 (truncate q)) :
    int64OfFloat64 env (.finite q) = truncate q := by
  unfold fitsInt64 at h
  simp only [int64OfFloat64, tdiv_eq_truncate]
  rw [if_pos h]

theorem wrapInt64_of_fits (x : Int) (h : fitsInt64 x) : wrapInt64 x = x := by
  unfold fitsInt64 at h
  unfold wrapInt64
  have e63 : (2 : Int) ^ 63 = 9223372036854775808 := by norm_num
  have e64 : (2 : Int) ^ 64 = 18446744073709551616 := by norm_num
  rw [e63] at h ⊢
  rw [e64]
  omega

theorem round64_int (round64 : ℚ → ℚ) (hexact : RoundExact round64) (n : Int)
    (hn : |n| < 2 ^ 53) : round64 (n : ℚ) = (n : ℚ) := by
  have h := hexact n 0 hn (by norm_num) (by norm_num)
  simpa using h

theorem exactRound_monotone : RoundMonotone exactRound := fun _ _ h => h

theorem exactRound_exact : RoundExact exactRound := fun _ _ _ _ _ => rfl

theorem ExpireIn_whole_seconds (env : Env) (round64 : ℚ → ℚ) (d : Int)
    (hmono : RoundMonotone round64) (hexact : RoundExact round64)
    (hnow : -2 ^ 63 ≤ EpochNow env ∧ EpochNow env < 2 ^ 62)
    (hd1 : Second ≤ d) (hd2 : d < 2 ^ 63) :
    EpochNow env < ExpireIn env round64 d := by
  have e63 : (2 : Int) ^ 63 = 9223372036854775808 := by norm_num
  have e62 : (2 : Int) ^ 62 = 4611686018427387904 := by norm_num
  rw [e63] at hd2
  rw [e63, e62] at hnow
  unfold Second at hd1
  have hsec : Int.tdiv d Second = d / 1000000000 :=
    Int.tdiv_eq_ediv (by omega) (by unfold Second; omega)
  have hnsec : Int.tmod d Second = d % 1000000000 :=
    Int.tmod_eq_emod (by omega) (by unfold Second; omega)
  have hs1 : 1 ≤ d / 1000000000 ∧ d / 1000000000 ≤ 9223372036 := by omega
  have hn1 : 0 ≤ d % 1000000000 ∧ d % 1000000000 < 1000000000 := by omega
  have r0 : round64 0 = 0 := by
    have := round64_int round64 hexact 0 (by norm_num)
    simpa using this
  have r1 : round64 1 = 1 := by
    have := round64_int round64 hexact 1 (by norm_num)
    simpa using this
  have hfrac0 : (0 : ℚ) ≤ ((d % 1000000000 : Int) : ℚ) / 1000000000 := by
    apply div_nonneg
    · exact_mod_cast hn1.1
    · norm_num
  have hfrac1 : ((d % 1000000000 : Int) : ℚ) / 1000000000 ≤ 1 := by
    rw [div_le_one (by norm_num)]
    exact_mod_cast le_of_lt hn1.2
  have hf0 : 0 ≤ round64 (((d % 1000000000 : Int) : ℚ) / 1000000000) := by
    have := hmono _ _ hfrac0
    rwa [r0] at this
  have hf1 : round64 (((d % 1000000000 : Int) : ℚ) / 1000000000) ≤ 1 := by
    have := hmono _ _ hfrac1
    rwa [r1] at this
  have hrs : round64 ((d / 1000000000 : Int) : ℚ) = ((d / 1000000000 : Int) : ℚ) :=
    round64_int round64 hexact _ (by rw [abs_lt]; constructor <;> norm_num <;> omega)
  have hrs1 : round64 (((d / 1000000000 + 1 : Int)) : ℚ) = ((d / 1000000000 + 1 : Int) : ℚ) :=
    round64_int round64 hexact _ (by rw [abs_lt]; constructor <;> norm_num <;> omega)
  have hq0 : ((d / 1000000000 : Int) : ℚ) ≤
      round64 (((d / 1000000000 : Int) : ℚ) +
        round64 (((d % 1000000000 : Int) : ℚ) / 1000000000)) := by
    have := hmono ((d / 1000000000 : Int) : ℚ)
      (((d / 1000000000 : Int) : ℚ) + round64 (((d % 1000000000 : Int) : ℚ) / 1000000000))
      (by linarith)
    rwa [hrs] at this
  have hq1 : round64 (((d / 1000000000 : Int) : ℚ) +
        round64 (((d % 1000000000 : Int) : ℚ) / 1000000000)) ≤
      ((d / 1000000000 + 1 : Int) : ℚ) := by
    have := hmono
      (((d / 1000000000 : Int) : ℚ) + round64 (((d % 1000000000 : Int) : ℚ) / 1000000000))
      (((d / 1000000000 + 1 : Int)) : ℚ) (by push_cast; linarith)
    rwa [hrs1] at this
  unfold ExpireIn Duration.Seconds
  simp only [hsec, hnsec]
  generalize round64 (((d / 1000000000 : Int) : ℚ) +
    round64 (((d % 1000000000 : Int) : ℚ) / 1000000000)) = q at hq0 hq1
  have hqpos : 0 ≤ q := le_trans (by exact_mod_cast (by omega : (0 : Int) ≤ d / 1000000000)) hq0
  have htr : truncate q = ⌊q⌋ := by
    unfold truncate
    rw [if_pos hqpos]
  have hfl0 : d / 1000000000 ≤ ⌊q⌋ := Int.le_floor.mpr hq0
  have hfl1 : ⌊q⌋ ≤ d / 1000000000 + 1 := by
    have h1 : ((⌊q⌋ : Int) : ℚ) ≤ ((d / 1000000000 + 1 : Int) : ℚ) :=
      le_trans (Int.floor_le q) hq1
    exact_mod_cast h1
  have hfit : fitsInt64 (truncate q) := by
    rw [htr]
    unfold fitsInt64
    rw [e63]
    omega
  rw [int64OfFloat64_finite env q hfit, htr]
  rw [wrapInt64_of_fits _ (by unfold fitsInt64; rw [e63]; omega)]
  omega

theorem ExpireIn_subsecond (env : Env) (round64 : ℚ → ℚ) (d : Int)
    (hmono : RoundMonotone round64) (hexact : RoundExact round64)
    (hnow : fitsInt64 (EpochNow env))
    (hd0 : 0 ≤ d) (hd1 : d < Second) :
    ExpireIn env round64 d = EpochNow env := by
  unfold Second at hd1
  have hsec : Int.tdiv d Second = 0 := by
    rw [Int.tdiv_eq_ediv hd0 (by unfold Second; omega)]
    unfold Second
    omega
  have hnsec : Int.tmod d Second = d := by
    rw [Int.tmod_eq_emod hd0 (by unfold Second; omega)]
    unfold Second
    omega
  have r0 : round64 0 = 0 := by
    have := round64_int round64 hexact 0 (by norm_num)
    simpa using this
  have rb : round64 ((1073741823 : ℚ) / 1073741824) = (1073741823 : ℚ) / 1073741824 := by
    have h := hexact 1073741823 (-30) (by norm_num) (by norm_num) (by norm_num)
    have e : ((1073741823 : Int) : ℚ) * (2 : ℚ) ^ (-30 : Int) = (1073741823 : ℚ) / 1073741824 := by
      norm_num
    rwa [e] at h
  have hfrac0 : (0 : ℚ) ≤ (d : ℚ) / 1000000000 := by
    apply div_nonneg
    · exact_mod_cast hd0
    · norm_num
  have hfrac1 : (d : ℚ) / 1000000000 ≤ (1073741823 : ℚ) / 1073741824 := by
    rw [div_le_div_iff₀ (by norm_num) (by norm_num)]
    have : (d : ℚ) ≤ 999999999 := by exact_mod_cast (by omega : d ≤ 999999999)
    nlinarith
  have hf0 : 0 ≤ round64 ((d : ℚ) / 1000000000) := by
    have := hmono _ _ hfrac0
    rwa [r0] at this
  have hf1 : round64 ((d : ℚ) / 1000000000) ≤ (1073741823 : ℚ) / 1073741824 := by
    have := hmono _ _ hfrac1
    rwa [rb] at this
  have hq0 : 0 ≤ round64 (((0 : Int) : ℚ) + round64 ((d : ℚ) / 1000000000)) := by
    have := hmono 0 (((0 : Int) : ℚ) + round64 ((d : ℚ) / 1000000000))
      (by push_cast; linarith)
    rwa [r0] at this
  have hq1 : round64 (((0 : Int) : ℚ) + round64 ((d : ℚ) / 1000000000)) ≤
      (1073741823 : ℚ) / 1073741824 := by
    have := hmono (((0 : Int) : ℚ) + round64 ((d : ℚ) / 1000000000))
      ((1073741823 : ℚ) / 1073741824) (by push_cast; linarith)
    rwa [rb] at this
  unfold ExpireIn Duration.Seconds
  simp only [hsec, hnsec]
  generalize round64 (((0 : Int) : ℚ) + round64 ((d : ℚ) / 1000000000)) = q at hq0 hq1
  have htr : truncate q = 0 := by
    unfold truncate
    rw [if_pos hq0, Int.floor_eq_iff]
    constructor
    · exact_mod_cast hq0
    · have : (1073741823 : ℚ) / 1073741824 < 1 := by norm_num
      push_cast
      linarith
  rw [int64OfFloat64_finite env q (by rw [htr]; unfold fitsInt64; norm_num), htr, add_zero,
    wrapInt64_of_fits _ hnow]

/-- C22 (counterexample). A duration of half a second is positive, and `ExpireIn`
of it is the clock reading itself, not a later time: `int64(0.5)` is 0. -/
theorem C22_half_second_not_future :
    (0 : Int) < 500000000 ∧
    ExpireIn demoEnv exactRound 500000000 = EpochNow demoEnv ∧
    ¬ (ExpireIn demoEnv exactRound 500000000 > EpochNow demoEnv) := by
  have h : ExpireIn demoEnv exactRound 500000000 = EpochNow demoEnv :=
    ExpireIn_subsecond demoEnv exactRound 500000000 exactRound_monotone exactRound_exact
      (by decide) (by decide) (by decide)
  refine ⟨by decide, h, ?_⟩
  rw [h]
  exact lt_irrefl _

/-- C22 (amended). With a rounding of `float64` results that is monotone and leaves
doubles as they are, and a clock within the `int64` range and below `2 ^ 62`: for
every duration of at least one second, `ExpireIn` is strictly greater than
`EpochNow` at the same clock reading; for a duration from zero to under one second
it equals `EpochNow`, the fraction of a second being cut off. -/
theorem C22_ExpireIn_future_from_one_second (env : Env) (round64 : ℚ → ℚ) (d : Int)
    (hmono : RoundMonotone round64) (hexact : RoundExact round64)
    (hnow : -2 ^ 63 ≤ EpochNow env ∧ EpochNow env < 2 ^ 62) (hd : d < 2 ^ 63) :
    (Second ≤ d → ExpireIn env round64 d > EpochNow env) ∧
    (0 ≤ d → d < Second → ExpireIn env round64 d = EpochNow env) := by
  constructor
  · intro h1
    exact ExpireIn_whole_seconds env round64 d hmono hexact hnow h1 hd
  · intro h0 h1
    refine ExpireIn_subsecond env round64 d hmono hexact ?_ h0 h1
    unfold fitsInt64
    have e63 : (2 : Int) ^ 63 = 9223372036854775808 := by norm_num
    have e62 : (2 : Int) ^ 62 = 4611686018427387904 := by norm_num
    rw [e63, e62] at hnow
    rw [e63]
    omega

/-- Witness of C22 (amended): one hour from the clock reading 1500000000. -/
theorem C22_ExpireIn_future_from_one_second_witness :
    ExpireIn demoEnv exactRound 3600000000000 > EpochNow demoEnv :=
  (C22_ExpireIn_future_from_one_second demoEnv exactRound 3600000000000
    exactRound_monotone exactRound_exact (by decide) (by decide)).1 (by decide)

/-! ## The outcome without error -/

/-- C18 (counterexample). A valid HS256 token whose `exp` is the `json.Number`
"2000000000.0", decoded without error at clock 1500000000: the token is non-nil, has
`Valid` true and the configured signer, and its `exp` value 2000000000 is not less
than the clock, yet `Verify` writes `ErrExpired`, because `Int64()` fails on the
text and `IsExpired` reads 0. -/
theorem C18_fraction_number_expires :
    jsonNumberAuth.Decode fractionEnv
        (Verify.tokenStr fractionEnv [] (queryRequest (str "frac"))) =
      (some fractionToken, none) ∧
    fractionToken.Valid = true ∧ fractionToken.Method = jsonNumberAuth.signer ∧
    fractionToken.Claims.get (str "exp") = some (.jsonNumber (str "2000000000.0")) ∧
    expValue (.jsonNumber (str "2000000000.0")) = some 2000000000 ∧
    (EpochNow fractionEnv : ℚ) ≤ 2000000000 ∧
    jsonNumberAuth.Verify fractionEnv [] okHandler emptyWriter (queryRequest (str "frac")) =
      okHandler emptyWriter ((queryRequest (str "frac")).WithContext
        (jsonNumberAuth.SetContext (queryRequest (str "frac")).ctx (some fractionToken)
          (some .ErrExpired))) ∧
    ((queryRequest (str "frac")).WithContext
        (jsonNumberAuth.SetContext (queryRequest (str "frac")).ctx (some fractionToken)
          (some .ErrExpired))).ctx.Value jwtErrorKey = .error .ErrExpired := by
  refine ⟨by decide, by decide, by decide, by decide, by decide, by decide, ?_, by decide⟩
  rw [Verify_eq]
  rfl

/-- C18 (amended). The outcome `Verify` writes carries no error (the request handed
to the next handler then holds nil under `jwtErrorKey`) if and only if `Decode`
returned a token and no error, and the token has `Valid` true, uses the configured
signer, and either has no `exp` claim or an `exp` that `IsExpired` reads as an
integer not less than the current epoch seconds; an outcome without error holds the
token `Decode` returned. The integer read is the `int64` itself, the `float64`
truncated toward zero when that fits an `int64`, the integer a `json.Number` text
denotes brought to the nearest `int64`, and 0 for a `json.Number` whose text is not
a decimal integer (its leading digits not overflowing), for a string and for a value
of another type. -/
theorem C18_no_error_iff_all_checks_pass (env : Env) (ja : JwtAuth)
    (al : List GoString) (r : Request) :
    (∀ (next : Handler) (w : ResponseWriter),
      ja.Verify env al next w r =
        next w (r.WithContext (ja.SetContext r.ctx
          (Verify.checks ja env (ja.Decode env (Verify.tokenStr env al r))).1
          (Verify.checks ja env (ja.Decode env (Verify.tokenStr env al r))).2))) ∧
    ((r.WithContext (ja.SetContext r.ctx
        (Verify.checks ja env (ja.Decode env (Verify.tokenStr env al r))).1
        (Verify.checks ja env (ja.Decode env (Verify.tokenStr env al r))).2)).ctx.Value
      jwtErrorKey = .nil ↔
      (Verify.checks ja env (ja.Decode env (Verify.tokenStr env al r))).2 = none) ∧
    (r.WithContext (ja.SetContext r.ctx
        (Verify.checks ja env (ja.Decode env (Verify.tokenStr env al r))).1
        (Verify.checks ja env (ja.Decode env (Verify.tokenStr env al r))).2)).ctx.Value
      jwtTokenKey =
        .token (Verify.checks ja env (ja.Decode env (Verify.tokenStr env al r))).1 ∧
    ((Verify.checks ja env (ja.Decode env (Verify.tokenStr env al r))).2 = none ↔
      ∃ t, ja.Decode env (Verify.tokenStr env al r) = (some t, none) ∧
        t.Valid = true ∧ t.Method = ja.signer ∧
        (t.Claims.get (str "exp") = none ∨
          ∃ v, t.Claims.get (str "exp") = some v ∧
            EpochNow env ≤ IsExpired.exp env v)) ∧
    ((Verify.checks ja env (ja.Decode env (Verify.tokenStr env al r))).2 = none →
      (Verify.checks ja env (ja.Decode env (Verify.tokenStr env al r))).1 =
        (ja.Decode env (Verify.tokenStr env al r)).1 ∧
      (ja.Decode env (Verify.tokenStr env al r)).1 ≠ none) ∧
    ((∀ n : Int, IsExpired.exp env (.int64 n) = n) ∧
      (∀ q : ℚ, fitsInt64 (truncate q) →
        IsExpired.exp env (.float64 (.finite q)) = truncate q) ∧
      (∀ s n, decimalValue s = some n →
        IsExpired.exp env (.jsonNumber s) = clampInt64 n) ∧
      (∀ s, decimalValue s = none →
        digitsValue ((unsignedPart s).takeWhile isDigit) ≤ 2 ^ 64 - 1 →
        IsExpired.exp env (.jsonNumber s) = 0) ∧
      (∀ s, IsExpired.exp env (.string s) = 0) ∧
      IsExpired.exp env .other = 0) := by
  refine ⟨fun next w => Verify_eq ja env al next w r, ?_, ?_,
    ?_, ?_, ⟨fun n => rfl, IsExpired.exp_float64 env, fun s n h => Int64_of_decimal s n h,
      fun s h hp => Int64_of_nondecimal s h hp, fun s => rfl, rfl⟩⟩
  · cases (Verify.checks ja env (ja.Decode env (Verify.tokenStr env al r))).2 <;>
      simp [Request.WithContext, JwtAuth.SetContext, Context.WithValue, Context.Value,
        Any.ofError]
  · simp [Request.WithContext, JwtAuth.SetContext, Context.WithValue, Context.Value,
      jwtErrorKey_ne_jwtTokenKey]
  · rw [checks_error_eq_none_iff]
    constructor
    · rintro ⟨t, hd, hv, hm, hx⟩
      exact ⟨t, hd, hv, hm, (IsExpired_eq_false_iff ja env t).mp hx⟩
    · rintro ⟨t, hd, hv, hm, hx⟩
      exact ⟨t, hd, hv, hm, (IsExpired_eq_false_iff ja env t).mpr hx⟩
  · exact checks_token_of_error_none ja env _

/-- Witness of C18 (amended): a good token in the query gives an outcome without
error that holds the token of `Decode`; the text "2000000000.0" is read as 0. -/
theorem C18_no_error_iff_all_checks_pass_witness :
    ((Verify.checks hs256 demoEnv
      (hs256.Decode demoEnv (Verify.tokenStr demoEnv [] (queryRequest (str "good"))))).1 =
      (hs256.Decode demoEnv (Verify.tokenStr demoEnv [] (queryRequest (str "good")))).1 ∧
    (hs256.Decode demoEnv (Verify.tokenStr demoEnv [] (queryRequest (str "good")))).1 ≠
      none) ∧
    IsExpired.exp demoEnv (.jsonNumber (str "2000000000.0")) = 0 ∧
    ((queryRequest (str "good")).WithContext
        (hs256.SetContext (queryRequest (str "good")).ctx (some goodToken) none)).ctx.Value
      jwtErrorKey = .nil ∧
    ((queryRequest (str "good")).WithContext
        (hs256.SetContext (queryRequest (str "good")).ctx (some goodToken) none)).ctx.Value
      jwtTokenKey = .token (some goodToken) :=
  ⟨(C18_no_error_iff_all_checks_pass demoEnv hs256 [] (queryRequest (str "good"))).2.2.2.2.1
      (by decide),
   (C18_no_error_iff_all_checks_pass demoEnv hs256 [] (queryRequest (str "good"))).2.2.2.2.2.2.2.2.1
      (str "2000000000.0") (by decide) (by decide),
   by decide, by decide⟩

end Popcube
